import Mathlib

/-!
Verification development for the orky-service repository.

Shallow embedding of the ticket-to-pull-request orchestration core:
the text normalizer, fingerprint builder, hard-rule validator and the
scanner orchestration loop of `api/brain/jira_scanner.js`, the
blob-tree-commit pull-request flow of `pages/api/github/pr.js`, and the
run-store operations of the persisted run model.  External collaborators
(the Jira REST API, the generative model, the GitHub REST API) are
modelled as an environment that decides each call's outcome; each call
issued by the code is recorded as an event in a trace.
-/

namespace Orky

/-! ## Text normalization (`normalizeText` in api/brain/jira_scanner.js)

The JS source is
`(s || "").replace(/\r\n/g, "\n").replace(/[ \t]+/g, " ").replace(/\n{3,}/g, "\n\n").trim()`.
Each regex pass is embedded as a pass over the character list. -/

/-- One character of the class `[ \t]`. -/
def isSpTab (c : Char) : Bool := c == ' ' || c == '\t'

/-- `replace(/\r\n/g, "\n")`: every CRLF pair becomes a single LF,
scanning left to right. -/
def crlfToLf : List Char → List Char
  | '\r' :: '\n' :: rest => '\n' :: crlfToLf rest
  | c :: rest => c :: crlfToLf rest
  | [] => []

/-- `replace(/[ \t]+/g, " ")`, fuel-indexed so the kernel can unfold it;
the fuel is an upper bound on the list length, which strictly drops at
every step. -/
def collapseSpTabGo : Nat → List Char → List Char
  | 0, _ => []
  | _, [] => []
  | fuel + 1, c :: rest =>
    if isSpTab c then ' ' :: collapseSpTabGo fuel (rest.dropWhile isSpTab)
    else c :: collapseSpTabGo fuel rest

/-- `replace(/[ \t]+/g, " ")`: every maximal run of spaces and tabs
becomes a single space. -/
def collapseSpTab (l : List Char) : List Char := collapseSpTabGo l.length l

/-- `replace(/\n{3,}/g, "\n\n")`, fuel-indexed. -/
def collapseNlGo : Nat → List Char → List Char
  | 0, _ => []
  | _, [] => []
  | fuel + 1, c :: rest =>
    if c == '\n' then
      let run := rest.takeWhile (· == '\n')
      let emitted := if run.length + 1 ≥ 3 then ['\n', '\n'] else '\n' :: run
      emitted ++ collapseNlGo fuel (rest.dropWhile (· == '\n'))
    else c :: collapseNlGo fuel rest

/-- `replace(/\n{3,}/g, "\n\n")`: every maximal run of three or more
LFs becomes exactly two. -/
def collapseNl (l : List Char) : List Char := collapseNlGo l.length l

/-- The character class removed by JavaScript `String.prototype.trim`
(ECMA-262 WhiteSpace plus LineTerminator). -/
def jsTrimmable (c : Char) : Bool :=
  c == ' ' || c == '\t' || c == '\n' || c == '\r' ||
  c.toNat == 0x0b || c.toNat == 0x0c || c.toNat == 0xa0 ||
  c.toNat == 0x1680 || (0x2000 ≤ c.toNat && c.toNat ≤ 0x200a) ||
  c.toNat == 0x2028 || c.toNat == 0x2029 || c.toNat == 0x202f ||
  c.toNat == 0x205f || c.toNat == 0x3000 || c.toNat == 0xfeff

/-- `String.prototype.trim`: strip trimmable characters from both ends. -/
def jsTrim (l : List Char) : List Char :=
  ((l.dropWhile jsTrimmable).reverse.dropWhile jsTrimmable).reverse

/-- `normalizeText` from api/brain/jira_scanner.js: CRLF unification,
space/tab collapse, blank-line collapse, trim — in that order. -/
def normalizeText (s : String) : String :=
  String.mk (jsTrim (collapseNl (collapseSpTab (crlfToLf s.data))))

/-! ## SHA-256 (`crypto.createHash("sha256").update(s, "utf8").digest("hex")`)

FIPS 180-4 SHA-256 over the UTF-8 bytes of the input string.  Words are
`Nat` reduced mod 2^32. -/

/-- UTF-8 encoding of one code point. -/
def utf8EncodeCharNat (c : Char) : List Nat :=
  let n := c.toNat
  if n < 0x80 then [n]
  else if n < 0x800 then [0xc0 ||| (n >>> 6), 0x80 ||| (n &&& 0x3f)]
  else if n < 0x10000 then
    [0xe0 ||| (n >>> 12), 0x80 ||| ((n >>> 6) &&& 0x3f), 0x80 ||| (n &&& 0x3f)]
  else
    [0xf0 ||| (n >>> 18), 0x80 ||| ((n >>> 12) &&& 0x3f),
     0x80 ||| ((n >>> 6) &&& 0x3f), 0x80 ||| (n &&& 0x3f)]

/-- UTF-8 bytes of a string, each byte a `Nat` below 256. -/
def utf8Bytes (s : String) : List Nat :=
  (s.data.map utf8EncodeCharNat).flatten

def add32 (a b : Nat) : Nat := (a + b) % 4294967296

def rotr32 (n x : Nat) : Nat := ((x >>> n) ||| (x <<< (32 - n))) % 4294967296

def bsig0 (x : Nat) : Nat := rotr32 2 x ^^^ rotr32 13 x ^^^ rotr32 22 x

def bsig1 (x : Nat) : Nat := rotr32 6 x ^^^ rotr32 11 x ^^^ rotr32 25 x

def ssig0 (x : Nat) : Nat := rotr32 7 x ^^^ rotr32 18 x ^^^ (x >>> 3)

def ssig1 (x : Nat) : Nat := rotr32 17 x ^^^ rotr32 19 x ^^^ (x >>> 10)

def chFn (x y z : Nat) : Nat := (x &&& y) ^^^ ((x ^^^ 0xffffffff) &&& z)

def majFn (x y z : Nat) : Nat := (x &&& y) ^^^ (x &&& z) ^^^ (y &&& z)

/-- The 64 SHA-256 round constants (decimal renderings of the
FIPS 180-4 hex words). -/
def sha256K : List Nat :=
  [1116352408, 1899447441, 3049323471, 3921009573, 961987163,
   1508970993, 2453635748, 2870763221, 3624381080, 310598401,
   607225278, 1426881987, 1925078388, 2162078206, 2614888103,
   3248222580, 3835390401, 4022224774, 264347078, 604807628,
   770255983, 1249150122, 1555081692, 1996064986, 2554220882,
   2821834349, 2952996808, 3210313671, 3336571891, 3584528711,
   113926993, 338241895, 666307205, 773529912, 1294757372,
   1396182291, 1695183700, 1986661051, 2177026350, 2456956037,
   2730485921, 2820302411, 3259730800, 3345764771, 3516065817,
   3600352804, 4094571909, 275423344, 430227734, 506948616,
   659060556, 883997877, 958139571, 1322822218, 1537002063,
   1747873779, 1955562222, 2024104815, 2227730452, 2361852424,
   2428436474, 2756734187, 3204031479, 3329325298]

/-- The initial SHA-256 hash value (decimal renderings). -/
def sha256H0 : List Nat :=
  [1779033703, 3144134277, 1013904242, 2773480762,
   1359893119, 2600822924, 528734635, 1541459225]

/-- Merkle–Damgård padding: append 0x80, zeros, then the 64-bit
big-endian bit length. -/
def sha256Pad (msg : List Nat) : List Nat :=
  let len := msg.length
  let k := (119 - len % 64) % 64
  let bitLen := 8 * len
  msg ++ (0x80 :: List.replicate k 0) ++
    ((List.range 8).map fun i => (bitLen >>> (8 * (7 - i))) % 256)

/-- Split a byte list into 64-byte blocks, fuel-indexed. -/
def chunks64Go : Nat → List Nat → List (List Nat)
  | 0, _ => []
  | _, [] => []
  | fuel + 1, c :: rest => ((c :: rest).take 64) :: chunks64Go fuel ((c :: rest).drop 64)

/-- Split a byte list into 64-byte blocks. -/
def chunks64 (l : List Nat) : List (List Nat) := chunks64Go l.length l

/-- Big-endian 32-bit words from bytes. -/
def bytesToWords : List Nat → List Nat
  | b0 :: b1 :: b2 :: b3 :: rest =>
    ((b0 <<< 24) ||| (b1 <<< 16) ||| (b2 <<< 8) ||| b3) :: bytesToWords rest
  | _ => []

/-- One schedule word from the previous sixteen, most recent first. -/
def schedWord (rw : List Nat) : Nat :=
  add32 (add32 (ssig1 (rw.getD 1 0)) (rw.getD 6 0))
        (add32 (ssig0 (rw.getD 14 0)) (rw.getD 15 0))

/-- Extend the schedule by `n` words (list kept reversed). -/
def schedExtend : Nat → List Nat → List Nat
  | 0, rw => rw
  | n + 1, rw => schedExtend n (schedWord rw :: rw)

/-- The 64-word message schedule of one block. -/
def sha256Schedule (block : List Nat) : List Nat :=
  (schedExtend 48 (bytesToWords block).reverse).reverse

/-- Working state of the compression function. -/
structure Sha256St where
  a : Nat
  b : Nat
  c : Nat
  d : Nat
  e : Nat
  f : Nat
  g : Nat
  h : Nat

/-- One round of the compression function. -/
def sha256Round (st : Sha256St) (wk : Nat × Nat) : Sha256St :=
  let t1 := add32 (add32 (add32 st.h (bsig1 st.e)) (add32 (chFn st.e st.f st.g) wk.2)) wk.1
  let t2 := add32 (bsig0 st.a) (majFn st.a st.b st.c)
  { a := add32 t1 t2, b := st.a, c := st.b, d := st.c,
    e := add32 st.d t1, f := st.e, g := st.f, h := st.g }

/-- Compress one 64-byte block into the running hash (8 words). -/
def sha256Block (hs : List Nat) (block : List Nat) : List Nat :=
  let st0 : Sha256St :=
    { a := hs.getD 0 0, b := hs.getD 1 0, c := hs.getD 2 0, d := hs.getD 3 0,
      e := hs.getD 4 0, f := hs.getD 5 0, g := hs.getD 6 0, h := hs.getD 7 0 }
  let st := ((sha256Schedule block).zip sha256K).foldl sha256Round st0
  [add32 (hs.getD 0 0) st.a, add32 (hs.getD 1 0) st.b,
   add32 (hs.getD 2 0) st.c, add32 (hs.getD 3 0) st.d,
   add32 (hs.getD 4 0) st.e, add32 (hs.getD 5 0) st.f,
   add32 (hs.getD 6 0) st.g, add32 (hs.getD 7 0) st.h]

/-- SHA-256 digest of a byte list, as 32 bytes. -/
def sha256Bytes (msg : List Nat) : List Nat :=
  let hs := (chunks64 (sha256Pad msg)).foldl sha256Block sha256H0
  (hs.map fun w => [(w >>> 24) % 256, (w >>> 16) % 256, (w >>> 8) % 256, w % 256]).flatten

/-- Lower-case hex digit. -/
def hexDigit (n : Nat) : Char :=
  if n < 10 then Char.ofNat (48 + n) else Char.ofNat (87 + n)

/-- Lower-case hex string of a byte list. -/
def bytesToHex (bs : List Nat) : String :=
  String.mk ((bs.map fun b => [hexDigit (b / 16), hexDigit (b % 16)]).flatten)

/-- `sha256Hex` from api/brain/jira_scanner.js: hex SHA-256 of the
UTF-8 bytes of a string. -/
def sha256Hex (s : String) : String :=
  bytesToHex (sha256Bytes (utf8Bytes s))

/-! ## Fingerprint builder (`buildFingerprint` in api/brain/jira_scanner.js) -/

/-- The five snapshot fields hashed by `buildFingerprint`.  The JS
defaults `jiraUpdatedAt || ""` and `jiraStatus || ""` map absent values
to the empty string, so each field is modelled as a plain string. -/
structure FpInput where
  jiraKey : String
  jiraUpdatedAt : String
  jiraStatus : String
  acceptanceCriteria : String
  description : String
deriving DecidableEq

/-- The labeled, newline-joined digest input of `buildFingerprint`. -/
def fingerprintPayload (i : FpInput) : String :=
  "jiraKey=" ++ i.jiraKey ++ "\n" ++
  "updatedAt=" ++ i.jiraUpdatedAt ++ "\n" ++
  "status=" ++ i.jiraStatus ++ "\n" ++
  "ac=" ++ normalizeText i.acceptanceCriteria ++ "\n" ++
  "desc=" ++ normalizeText i.description

structure Fingerprint where
  full : String
  short : String
deriving DecidableEq

/-- `buildFingerprint`: SHA-256 of the payload, plus the short id
`fp_` + first 8 hex characters. -/
def buildFingerprint (i : FpInput) : Fingerprint :=
  let full := sha256Hex (fingerprintPayload i)
  { full := full, short := "fp_" ++ full.take 8 }

/-! ## Ticket snapshot model and field extraction

`fields.description` in the Jira payload is absent, a plain string, or
an Atlassian Document Format tree; the acceptance-criteria custom field
(when configured) is absent, a string, or some other JSON value (which
the source passes through `JSON.stringify`). -/

/-- An ADF node: a `type` tag, an optional `text`, and child content. -/
inductive ADF where
  | node (ty : String) (txt : Option String) (content : List ADF)

mutual

/-- The text chunks collected by the `walk` closure of
`extractDescriptionText`, in visit order (node text before children). -/
def adfTexts : ADF → List String
  | .node ty txt content =>
    (match ty, txt with
     | "text", some s => [s]
     | _, _ => []) ++ adfTextsList content

def adfTextsList : List ADF → List String
  | [] => []
  | d :: ds => adfTexts d ++ adfTextsList ds

end

/-- The shapes `fields.description` can take. -/
inductive DescField where
  | missing
  | str (s : String)
  | adf (d : ADF)

/-- A value of the configured acceptance-criteria custom field: either
a string or some other JSON value carried as its `JSON.stringify`
rendering. -/
inductive AcVal where
  | str (s : String)
  | other (jsonText : String)

/-- The issue fields fetched by the scanner (`summary`, `status`,
`labels`, `updated`, `description`, plus the optional AC custom
field). -/
structure Fields where
  summary : Option String
  statusName : Option String
  labels : Option (List String)
  updated : Option String
  description : DescField
  acField : Option AcVal

structure Issue where
  key : String
  fields : Fields

/-- `extractDescriptionText`: a string description verbatim, an ADF
tree flattened by joining its text nodes with single spaces, otherwise
empty. -/
def extractDescriptionText (f : Fields) : String :=
  match f.description with
  | .missing => ""
  | .str s => s
  | .adf d => String.intercalate " " (adfTexts d)

/-- Static configuration of the scanner, read from the environment at
module load in the source. An empty string models an unset variable. -/
structure Config where
  baseUrl : String
  email : String
  apiToken : String
  projectKey : String
  acFieldId : String
  defaultTargetRepo : String
  tidInProgress : String
  tidInReview : String

def STATUS_READY : String := "Ready for Engineering"

def STATUS_IN_PROGRESS : String := "In Progress"

def STATUS_IN_REVIEW : String := "In Review"

def BLOCKING_LABELS : List String :=
  ["blocked", "needs-info", "do-not-automate", "security-review-required"]

def REQUIRE_AUTOMATION_ALLOWED_LABEL : Bool := false

def AUTOMATION_ALLOWED_LABEL : String := "automation:allowed"

/-- JS truthiness of the custom-field value (`fields?.[id]` guard):
empty string is falsy, any object is truthy. -/
def acTruthy : AcVal → Bool
  | .str s => s != ""
  | .other _ => true

/-- Case-insensitive match of a literal against the head of `l`
(ASCII folding, as the source regex only uses ASCII letters). -/
def matchLitCI : List Char → List Char → Option (List Char)
  | [], l => some l
  | _, [] => none
  | p :: ps, c :: cs => if p.toLower == c.toLower then matchLitCI ps cs else none

/-- Remainders after consuming a prefix of `\s` characters, longest
first — the backtracking order of a greedy `\s*`.  The `\s` class of a
JS regex coincides with the `trim` whitespace class. -/
def wsSplitsDesc (l : List Char) : List (List Char) :=
  let maxRun := (l.takeWhile jsTrimmable).length
  (List.range (maxRun + 1)).map fun i => l.drop (maxRun - i)

/-- Remainders after `\s*:?\s*\n` in backtracking priority order
(both stars greedy, the optional colon preferred present). -/
def afterHeaderGaps (l : List Char) : List (List Char) :=
  (wsSplitsDesc l).flatMap fun r1 =>
    let colonOpts := match r1 with
      | ':' :: r2 => [r2, r1]
      | _ => [r1]
    colonOpts.flatMap fun r2 =>
      (wsSplitsDesc r2).filterMap fun r3 =>
        match r3 with
        | '\n' :: r4 => some r4
        | _ => none

/-- Does `(\n[A-Z][^\n]{0,60}\n|$)` match at the head of `r`?  Under
the regex's `i` flag the class `[A-Z]` also matches lower-case ASCII
letters. -/
def acTailMatch (r : List Char) : Bool :=
  match r with
  | [] => true
  | '\n' :: rest =>
    match rest with
    | u :: rest2 =>
      (('A' ≤ u && u ≤ 'Z') || ('a' ≤ u && u ≤ 'z')) &&
        (let p := (rest2.takeWhile (fun c => c != '\n')).length
         p ≤ 60 && decide (p < rest2.length))
    | [] => false
  | _ => false

/-- Group 1 of the acceptance-criteria regex when the whole pattern
matches at the head of `l`: after the literal header and the gap, the
lazy `([\s\S]*?)` takes the shortest body whose tail matches. -/
def acMatchAt (l : List Char) : Option (List Char) :=
  match matchLitCI "Acceptance Criteria".data l with
  | none => none
  | some r =>
    (afterHeaderGaps r).findSome? fun g =>
      (List.range (g.length + 1)).findSome? fun n =>
        if acTailMatch (g.drop n) then some (g.take n) else none

/-- Leftmost match of
`/Acceptance Criteria\s*:?\s*\n([\s\S]*?)(\n[A-Z][^\n]{0,60}\n|$)/i`,
returning group 1. -/
def acScan : List Char → Option (List Char)
  | [] => none
  | c :: rest =>
    match acMatchAt (c :: rest) with
    | some g => some g
    | none => acScan rest

/-- `extractAcceptanceCriteria`: the configured custom field when
present and truthy, else group 1 of the regex over the normalized
description, else empty. -/
def extractAcceptanceCriteria (cfg : Config) (f : Fields) : String :=
  let fallback :=
    let desc := normalizeText (extractDescriptionText f)
    match acScan desc.data with
    | some g1 => if g1.isEmpty then "" else normalizeText (String.mk g1)
    | none => ""
  match f.acField with
  | some v =>
    if cfg.acFieldId != "" && acTruthy v then
      match v with
      | .str s => normalizeText s
      | .other j => normalizeText j
    else fallback
  | none => fallback

/-! ## Hard-rule validator (`validateHardRules`) -/

/-- `String(x).toLowerCase()` on label strings, as a character map
(ASCII folding; the configured labels are all ASCII). -/
def jsToLower (s : String) : String := String.mk (s.data.map Char.toLower)

/-- First-occurrence deduplication: the iteration order of a JS `Set`
built from a list. -/
def setListGo (seen : List String) : List String → List String
  | [] => []
  | x :: xs => if seen.contains x then setListGo seen xs else x :: setListGo (x :: seen) xs

def setList (l : List String) : List String := setListGo [] l

/-- The normalized fields the validator extracts for downstream use. -/
structure Extracted where
  jiraKey : String
  jiraStatus : String
  jiraUpdatedAt : String
  summary : String
  labels : List String
  description : String
  acceptanceCriteria : String
  targetRepo : String
deriving DecidableEq

structure Validation where
  ok : Bool
  blockers : List String
  extracted : Extracted

/-- `validateHardRules`: each rule contributes its blockers
independently, in source order; `ok` iff no blocker. -/
def validateHardRules (cfg : Config) (issue : Issue) : Validation :=
  let fields := issue.fields
  let statusName := fields.statusName.getD ""
  let summary := normalizeText (fields.summary.getD "")
  let labels := (fields.labels.getD []).map jsToLower
  let labelSet := setList labels
  let description := normalizeText (extractDescriptionText fields)
  let acceptanceCriteria := normalizeText (extractAcceptanceCriteria cfg fields)
  let jiraUpdatedAt := fields.updated.getD ""
  let targetRepo := cfg.defaultTargetRepo
  let blockers :=
    (if statusName != STATUS_READY then
      ["Status is \"" ++ statusName ++ "\" not \"" ++ STATUS_READY ++ "\""] else []) ++
    (if summary == "" || summary.length < 8 then ["Missing or too-short Summary"] else []) ++
    (if description == "" then ["Missing Description"] else []) ++
    (if acceptanceCriteria == "" then ["Missing Acceptance Criteria"] else []) ++
    (labelSet.filter (fun l => BLOCKING_LABELS.contains l)).map
      (fun l => "Blocking label: " ++ l) ++
    (if REQUIRE_AUTOMATION_ALLOWED_LABEL && !(labelSet.contains AUTOMATION_ALLOWED_LABEL) then
      ["Missing required label: " ++ AUTOMATION_ALLOWED_LABEL] else []) ++
    (if targetRepo == "" then
      ["Missing target repo (set DEFAULT_TARGET_REPO or map from Jira field)"] else [])
  { ok := blockers.length == 0
    blockers := blockers
    extracted :=
      { jiraKey := issue.key, jiraStatus := statusName, jiraUpdatedAt := jiraUpdatedAt,
        summary := summary, labels := labels, description := description,
        acceptanceCriteria := acceptanceCriteria, targetRepo := targetRepo } }

/-! ## Scanner orchestration (`runJiraScanner`)

External collaborators are an environment deciding each call's outcome
(`Except.error` models a thrown exception).  Each HTTP call the scanner
issues is recorded as an event; the environment sees the per-ticket
call history, so its answers may depend on call position. -/

/-- The `story` block of the forge instruction payload. -/
structure Story where
  summary : String
  description : String
  acceptanceCriteria : String
  labels : List String
  jiraUpdatedAt : String
deriving DecidableEq

/-- The instruction payload handed to `forgeProposal`. -/
structure ForgeInput where
  jiraKey : String
  runTimestamp : String
  fingerprint : String
  fingerprintShort : String
  story : Story
  targetRepo : String
deriving DecidableEq

/-- The scanner passes the forged proposal through to the Repository
Mutator without inspecting it, so it is opaque here. -/
abbrev Proposal := String

/-- The `meta` block of the PR-creation request. -/
structure PrMeta where
  jiraKey : String
  fingerprint : String
  fingerprintShort : String
  runTimestamp : String
deriving DecidableEq

/-- The argument object of `brainToHandsCreatePr`. -/
structure PrRequest where
  jiraKey : String
  repo : String
  timestamp : String
  branchName : String
  prTitle : String
  labels : List String
  meta : PrMeta
  proposal : Proposal
deriving DecidableEq

/-- The fields of the mutator's result the scanner inspects
(`pr?.url || pr?.html_url || pr?.prUrl`). -/
structure PrView where
  url : Option String
  htmlUrl : Option String
  prUrl : Option String
deriving DecidableEq

/-- JS `||` on possibly-absent strings: empty string is falsy. -/
def jsOrStr (a b : Option String) : Option String :=
  match a with
  | some s => if s == "" then b else some s
  | none => b

/-- The PR url the scanner extracts; `none` models the falsy result
that makes it throw. -/
def prUrlOf (pr : PrView) : Option String :=
  match jsOrStr (jsOrStr pr.url pr.htmlUrl) pr.prUrl with
  | some s => if s == "" then none else some s
  | none => none

/-- One external call issued by the scanner. -/
inductive Ev where
  | transition (key tid : String)
  | comment (key text : String)
  | forgeCall (inp : ForgeInput)
  | createPr (req : PrRequest)
deriving DecidableEq

abbrev Trace := List Ev

/-- Collaborator behaviour: the outcome of each call, given the
per-ticket call history so far and the call's arguments. -/
structure Env where
  now : String
  searchReady : Except String (List Issue)
  transition : Trace → String → String → Except String Unit
  addComment : Trace → String → String → Except String Unit
  forge : Trace → ForgeInput → Except String Proposal
  createPr : Trace → PrRequest → Except String PrView

def jiraCfgOk (cfg : Config) : Bool :=
  cfg.baseUrl != "" && cfg.email != "" && cfg.apiToken != ""

def missingJiraEnvMsg : String :=
  "Missing Jira env vars: JIRA_BASE_URL, JIRA_EMAIL, JIRA_API_TOKEN"

def missingTransitionMsg : String :=
  "Missing transition id for Jira transition. Set env vars: " ++
  "JIRA_TRANSITION_ID_TO_IN_PROGRESS and JIRA_TRANSITION_ID_TO_IN_REVIEW."

/-- `jiraTransition`: throws without an HTTP call when the transition
id is unset or the Jira env vars are missing; otherwise the call is
issued (event recorded) and the environment decides its outcome. -/
def callTransition (cfg : Config) (env : Env) (tr : Trace) (key tid : String) :
    Trace × Except String Unit :=
  if tid == "" then (tr, .error missingTransitionMsg)
  else if !jiraCfgOk cfg then (tr, .error missingJiraEnvMsg)
  else (tr ++ [.transition key tid], env.transition tr key tid)

/-- `jiraAddComment` via `jiraFetch`. -/
def callComment (cfg : Config) (env : Env) (tr : Trace) (key text : String) :
    Trace × Except String Unit :=
  if !jiraCfgOk cfg then (tr, .error missingJiraEnvMsg)
  else (tr ++ [.comment key text], env.addComment tr key text)

def callForge (env : Env) (tr : Trace) (inp : ForgeInput) :
    Trace × Except String Proposal :=
  (tr ++ [.forgeCall inp], env.forge tr inp)

def callCreatePr (env : Env) (tr : Trace) (req : PrRequest) :
    Trace × Except String PrView :=
  (tr ++ [.createPr req], env.createPr tr req)

/-- Sequencing of awaited calls: an error aborts the rest, the trace of
calls made so far is kept. -/
def andThen {τ α β : Type} (r : τ × Except String α)
    (f : τ → α → τ × Except String β) : τ × Except String β :=
  match r with
  | (tr, .error e) => (tr, .error e)
  | (tr, .ok a) => f tr a

/-- Per-ticket outcome, as pushed onto `results.items`. -/
inductive Outcome where
  | validationFailed (reason : String)
  | prCreated (prUrl fingerprintShort repo branch : String)
  | failed (error : String)
deriving DecidableEq

structure Item where
  jiraKey : String
  outcome : Outcome
deriving DecidableEq

/-- The `outcome` string of an item. -/
def outcomeTag : Outcome → String
  | .validationFailed _ => "validation_failed_moved_to_in_review"
  | .prCreated _ _ _ _ => "pr_created_moved_to_in_review"
  | .failed _ => "failed"

/-- The fields the pipeline destructures out of `validation.extracted`. -/
def extractedOf (cfg : Config) (issue : Issue) : Extracted :=
  (validateHardRules cfg issue).extracted

/-- The fingerprint the pipeline computes from the extracted fields. -/
def fpOf (cfg : Config) (issue : Issue) : Fingerprint :=
  let ex := extractedOf cfg issue
  buildFingerprint
    ⟨issue.key, ex.jiraUpdatedAt, ex.jiraStatus, ex.acceptanceCriteria, ex.description⟩

/-- The pick-up comment posted after the transition to In Progress. -/
def pickupText (cfg : Config) (runTs : String) (issue : Issue) : String :=
  "Orky picked up work at " ++ runTs ++ " | fingerprint " ++ (fpOf cfg issue).short

/-- The forge instruction payload. -/
def forgeInputOf (cfg : Config) (runTs : String) (issue : Issue) : ForgeInput :=
  let ex := extractedOf cfg issue
  let fp := fpOf cfg issue
  ⟨issue.key, runTs, fp.full, fp.short,
   ⟨ex.summary, ex.description, ex.acceptanceCriteria, ex.labels, ex.jiraUpdatedAt⟩,
   ex.targetRepo⟩

/-- The branch name `<jiraKey>/<runTimestamp>`. -/
def branchNameOf (runTs : String) (issue : Issue) : String :=
  issue.key ++ "/" ++ runTs

/-- The PR-creation request. -/
def prRequestOf (cfg : Config) (runTs : String) (issue : Issue) (proposal : Proposal) :
    PrRequest :=
  let ex := extractedOf cfg issue
  let fp := fpOf cfg issue
  ⟨issue.key, ex.targetRepo, runTs, branchNameOf runTs issue,
   issue.key ++ ": " ++ ex.summary, ["created-by-orky"],
   ⟨issue.key, fp.full, fp.short, runTs⟩, proposal⟩

/-- The PR-opened comment posted after the transition to In Review. -/
def prOpenedText (cfg : Config) (issue : Issue) (prUrl : String) : String :=
  "PR opened: " ++ prUrl ++ " | fingerprint " ++ (fpOf cfg issue).short

/-- The joined blocker reason of the validation-failure branch. -/
def vfReason (cfg : Config) (issue : Issue) : String :=
  String.intercalate "; " (validateHardRules cfg issue).blockers

/-- The comment of the validation-failure branch. -/
def vfComment (cfg : Config) (issue : Issue) : String :=
  "Status transitioned from " ++ STATUS_READY ++ " to " ++ STATUS_IN_REVIEW ++
  " because - " ++ vfReason cfg issue

/-- The body of the per-ticket `try` block of `runJiraScanner`:
validate, then either the validation-failure branch (transition to In
Review + comment) or the full pipeline (transition to In Progress,
comment, forge, create PR, check PR url, transition to In Review,
comment). -/
def tryBody (cfg : Config) (env : Env) (runTs : String) (issue : Issue) :
    Trace × Except String Item :=
  let key := issue.key
  if (validateHardRules cfg issue).ok then
    andThen (callTransition cfg env [] key cfg.tidInProgress) fun tr1 _ =>
    andThen (callComment cfg env tr1 key (pickupText cfg runTs issue)) fun tr2 _ =>
    andThen (callForge env tr2 (forgeInputOf cfg runTs issue)) fun tr3 proposal =>
    andThen (callCreatePr env tr3 (prRequestOf cfg runTs issue proposal)) fun tr4 pr =>
    match prUrlOf pr with
    | none => (tr4, .error "PR creation returned no URL (expected pr.url)")
    | some prUrl =>
      andThen (callTransition cfg env tr4 key cfg.tidInReview) fun tr5 _ =>
      andThen (callComment cfg env tr5 key (prOpenedText cfg issue prUrl)) fun tr6 _ =>
      (tr6, .ok ⟨key, .prCreated prUrl (fpOf cfg issue).short
        (extractedOf cfg issue).targetRepo (branchNameOf runTs issue)⟩)
  else
    andThen (callTransition cfg env [] key cfg.tidInReview) fun tr1 _ =>
    andThen (callComment cfg env tr1 key (vfComment cfg issue)) fun tr2 _ =>
    (tr2, .ok ⟨key, .validationFailed (vfReason cfg issue)⟩)

/-- The comment text of the compensating action in the catch block. -/
def compCommentText (msg : String) : String :=
  "Status transitioned from " ++ STATUS_READY ++ " to " ++ STATUS_IN_REVIEW ++
  " because - Scanner execution failed: " ++ msg

/-- One loop iteration of `runJiraScanner`: the `try` body, and on any
exception the catch block — best-effort transition to In Review plus
comment, any secondary error swallowed, the original error recorded. -/
def processIssue (cfg : Config) (env : Env) (runTs : String) (issue : Issue) :
    Trace × Item :=
  match tryBody cfg env runTs issue with
  | (tr, .ok item) => (tr, item)
  | (tr, .error msg) =>
    match callTransition cfg env tr issue.key cfg.tidInReview with
    | (tr2, .ok _) =>
      ((callComment cfg env tr2 issue.key (compCommentText msg)).1,
       ⟨issue.key, .failed msg⟩)
    | (tr2, .error _) => (tr2, ⟨issue.key, .failed msg⟩)

def isProcessedItem (it : Item) : Bool :=
  match it.outcome with
  | .prCreated _ _ _ _ => true
  | _ => false

def isSkippedItem (it : Item) : Bool :=
  match it.outcome with
  | .validationFailed _ => true
  | _ => false

def isFailedItem (it : Item) : Bool :=
  match it.outcome with
  | .failed _ => true
  | _ => false

/-- The aggregate report returned by `runJiraScanner`. -/
structure Report where
  runTimestamp : String
  scanned : Nat
  processed : Nat
  skipped : Nat
  failed : Nat
  items : List Item
deriving DecidableEq

/-- The scan loop over the fetched issues: one item per issue, the
counters incremented according to each item's outcome. -/
def reportFor (cfg : Config) (env : Env) (runTs : String) (issues : List Issue) :
    Report :=
  let items := issues.map fun i => (processIssue cfg env runTs i).2
  { runTimestamp := runTs
    scanned := issues.length
    processed := items.countP fun it => isProcessedItem it
    skipped := items.countP fun it => isSkippedItem it
    failed := items.countP fun it => isFailedItem it
    items := items }

/-- `runJiraScanner`: timestamp, ready-issue search (with its
config guards), then the scan loop. -/
def runJiraScanner (cfg : Config) (env : Env) : Except String Report :=
  let runTs := env.now
  if cfg.projectKey == "" then .error "Missing JIRA_PROJECT_KEY"
  else if !jiraCfgOk cfg then .error missingJiraEnvMsg
  else
    match env.searchReady with
    | .error e => .error e
    | .ok issues => .ok (reportFor cfg env runTs issues)

/-! ## Repository Mutator (`pages/api/github/pr.js`)

The blob–tree–commit–ref–pull flow behind `brainToHandsCreatePr`.  Each
GitHub API call is an event; the environment decides each call's
result. -/

/-- One entry of the request's `files` array.  `content := none`
models a non-string `content` value (rejected by the source). -/
structure GFile where
  path : String
  content : Option String
  encoding : Option String
  mode : Option String
deriving DecidableEq

/-- One entry of the tree payload built from the blobs. -/
structure TreeItem where
  path : String
  mode : String
  ty : String
  sha : String
deriving DecidableEq

/-- The result of the open-pull-request call as used by the handler. -/
structure PullRes where
  htmlUrl : String
  number : Nat
deriving DecidableEq

/-- One GitHub API call issued by the flow. -/
inductive GhEv where
  | getRef (owner repo branch : String)
  | getCommit (owner repo sha : String)
  | createRef (owner repo ref sha : String)
  | createBlob (owner repo content encoding : String)
  | createTree (owner repo baseTree : String) (items : List TreeItem)
  | createCommit (owner repo message tree : String) (parents : List String)
  | updateRef (owner repo branch sha : String) (force : Bool)
  | createPull (owner repo title head base body : String) (draft : Bool)
deriving DecidableEq

abbrev GhTrace := List GhEv

/-- GitHub-side behaviour: the result of each call given the call
history and arguments. -/
structure GhEnv where
  instToken : Except String String
  genBranch : String
  refSha : GhTrace → String → String → String → Except String String
  commitTreeSha : GhTrace → String → String → String → Except String String
  blobSha : GhTrace → String → String → String → String → Except String String
  treeSha : GhTrace → String → String → String → List TreeItem → Except String String
  commitSha : GhTrace → String → String → String → String → List String → Except String String
  setRef : GhTrace → String → String → String → String → Bool → Except String Unit
  newRef : GhTrace → String → String → String → String → Except String Unit
  openPull : GhTrace → String → String → String → String → String → String → Bool →
    Except String PullRes

def ghGetRef (env : GhEnv) (tr : GhTrace) (owner repo branch : String) :
    GhTrace × Except String String :=
  (tr ++ [.getRef owner repo branch], env.refSha tr owner repo branch)

def ghGetCommit (env : GhEnv) (tr : GhTrace) (owner repo sha : String) :
    GhTrace × Except String String :=
  (tr ++ [.getCommit owner repo sha], env.commitTreeSha tr owner repo sha)

def ghCreateRef (env : GhEnv) (tr : GhTrace) (owner repo ref sha : String) :
    GhTrace × Except String Unit :=
  (tr ++ [.createRef owner repo ref sha], env.newRef tr owner repo ref sha)

def ghCreateBlob (env : GhEnv) (tr : GhTrace) (owner repo content encoding : String) :
    GhTrace × Except String String :=
  (tr ++ [.createBlob owner repo content encoding], env.blobSha tr owner repo content encoding)

def ghCreateTree (env : GhEnv) (tr : GhTrace) (owner repo baseTree : String)
    (items : List TreeItem) : GhTrace × Except String String :=
  (tr ++ [.createTree owner repo baseTree items], env.treeSha tr owner repo baseTree items)

def ghCreateCommit (env : GhEnv) (tr : GhTrace) (owner repo message tree : String)
    (parents : List String) : GhTrace × Except String String :=
  (tr ++ [.createCommit owner repo message tree parents],
   env.commitSha tr owner repo message tree parents)

def ghUpdateRef (env : GhEnv) (tr : GhTrace) (owner repo branch sha : String)
    (force : Bool) : GhTrace × Except String Unit :=
  (tr ++ [.updateRef owner repo branch sha force], env.setRef tr owner repo branch sha force)

def ghOpenPull (env : GhEnv) (tr : GhTrace) (owner repo title head base body : String)
    (draft : Bool) : GhTrace × Except String PullRes :=
  (tr ++ [.createPull owner repo title head base body draft],
   env.openPull tr owner repo title head base body draft)

/-- The per-file blob-creation loop of `commitFiles`: validates each
entry and creates one blob per file, collecting the tree items in file
order. -/
def createBlobs (env : GhEnv) (tr : GhTrace) (owner repo : String) :
    List GFile → GhTrace × Except String (List TreeItem)
  | [] => (tr, .ok [])
  | f :: fs =>
    match f.content with
    | none => (tr, .error "Each file must include \x7b path, content \x7d")
    | some content =>
      if f.path == "" then (tr, .error "Each file must include \x7b path, content \x7d")
      else
        andThen (ghCreateBlob env tr owner repo content (f.encoding.getD "utf-8"))
          fun tr1 blobSha =>
        andThen (createBlobs env tr1 owner repo fs) fun tr2 items =>
        (tr2, .ok (⟨f.path, f.mode.getD "100644", "blob", blobSha⟩ :: items))

/-- `commitFiles`: resolve the branch head and its tree, create one
blob per file, one tree, one commit whose sole parent is the branch
head, and advance the branch ref to it.  Returns the new commit sha. -/
def commitFiles (env : GhEnv) (tr : GhTrace) (owner repo branch commitMessage : String)
    (files : List GFile) : GhTrace × Except String String :=
  andThen (ghGetRef env tr owner repo branch) fun tr1 commitSha =>
  andThen (ghGetCommit env tr1 owner repo commitSha) fun tr2 baseTreeSha =>
  andThen (createBlobs env tr2 owner repo files) fun tr3 treeItems =>
  andThen (ghCreateTree env tr3 owner repo baseTreeSha treeItems) fun tr4 newTreeSha =>
  andThen (ghCreateCommit env tr4 owner repo commitMessage newTreeSha [commitSha])
    fun tr5 newCommitSha =>
  andThen (ghUpdateRef env tr5 owner repo branch newCommitSha false) fun tr6 _ =>
  (tr6, .ok newCommitSha)

/-- JS `x || default` for an optional string field. -/
def jsOrDefault (s : Option String) (d : String) : String :=
  match s with
  | some v => if v == "" then d else v
  | none => d

/-- The request body of the PR handler. -/
structure PrBody where
  repo : Option String
  branchName : Option String
  prTitle : Option String
  prBody : Option String
  commitMessage : Option String
  files : Option (List GFile)

/-- The handler's success payload. -/
structure PrHandlerRes where
  owner : String
  repo : String
  base : String
  head : String
  prUrl : String
  prNumber : Nat
deriving DecidableEq

/-- The change-creation flow of the PR handler after its auth and
method guards: body validation, installation token, base sha, new
branch, `commitFiles`, open pull request.  HTTP status codes are out
of scope; every failure is the error message of the JSON response. -/
def prHandlerCore (env : GhEnv) (owner defaultBranch : String) (body : PrBody) :
    GhTrace × Except String PrHandlerRes :=
  match body.repo with
  | none => ([], .error "Missing body.repo")
  | some repo =>
    if repo == "" then ([], .error "Missing body.repo")
    else
      match body.files with
      | none => ([], .error "Missing body.files[]")
      | some files =>
        if files.isEmpty then ([], .error "Missing body.files[]")
        else
          match env.instToken with
          | .error e => ([], .error e)
          | .ok _ =>
            andThen (ghGetRef env [] owner repo defaultBranch) fun tr1 baseSha =>
            let safeBranch := jsOrDefault body.branchName env.genBranch
            andThen (ghCreateRef env tr1 owner repo ("refs/heads/" ++ safeBranch) baseSha)
              fun tr2 _ =>
            let finalCommitMessage :=
              jsOrDefault body.commitMessage ("Orky update (" ++ safeBranch ++ ")")
            andThen (commitFiles env tr2 owner repo safeBranch finalCommitMessage files)
              fun tr3 _ =>
            andThen (ghOpenPull env tr3 owner repo
                (jsOrDefault body.prTitle ("Orky PR: " ++ finalCommitMessage))
                safeBranch defaultBranch (jsOrDefault body.prBody "") false)
              fun tr4 pr =>
            (tr4, .ok ⟨owner, repo, defaultBranch, safeBranch, pr.htmlUrl, pr.number⟩)

/-! ## Run Store (`db/queries.ts`, `routes.ts` and the orky_runs schema) -/

/-- One row of `orky_runs`. -/
structure OrkyRun where
  id : String
  jira_key : String
  cursor_state : String
  cursor_step : String
  cursor_attempt : Nat
  locked_by : Option String
  lock_expires_at : Option String
  max_autofix_attempts : Nat
  last_error : Option String
  updated_at : String
deriving DecidableEq

/-- `createRun`: the inserted row, with the schema's defaults for the
columns the insert omits. -/
def createRunRow (id jiraKey now : String) : OrkyRun :=
  { id := id, jira_key := jiraKey, cursor_state := "RECEIVED",
    cursor_step := "INTAKE_START", cursor_attempt := 0, locked_by := none,
    lock_expires_at := none, max_autofix_attempts := 3, last_error := none,
    updated_at := now }

/-- `setRunCursor`: the row update `\x7b cursor_state, cursor_step,
cursor_attempt, updated_at \x7d` applied unconditionally to the row
with the given id. -/
def setRunCursorRow (r : OrkyRun) (state step : String) (attempt : Nat)
    (now : String) : OrkyRun :=
  { r with cursor_state := state, cursor_step := step,
           cursor_attempt := attempt, updated_at := now }

/-- `POST /runs/:id/start`: re-set the cursor to RECEIVED/INTAKE_START
keeping the attempt counter. -/
def startRunRoute (r : OrkyRun) (now : String) : OrkyRun :=
  setRunCursorRow r "RECEIVED" "INTAKE_START" r.cursor_attempt now

/-- `POST /runs/:id/cancel`: set the cursor to CANCELLED/CANCELLED
keeping the attempt counter. -/
def cancelRunRoute (r : OrkyRun) (now : String) : OrkyRun :=
  setRunCursorRow r "CANCELLED" "CANCELLED" r.cursor_attempt now

/-! ## Helper lemmas -/

theorem string_data_append (s t : String) : (s ++ t).data = s.data ++ t.data := rfl

theorem string_eq_of_data_eq {s t : String} (h : s.data = t.data) : s = t :=
  congrArg String.mk h

theorem mem_setListGo {x : String} {l : List String} :
    ∀ {seen : List String}, x ∈ l → ¬ x ∈ seen → x ∈ setListGo seen l := by
  induction l with
  | nil => intro seen hx _; cases hx
  | cons y ys ih =>
    intro seen hx hseen
    simp only [setListGo]
    by_cases hy : seen.contains y
    · rw [if_pos hy]
      rcases List.mem_cons.mp hx with h | h
      · subst h
        exact absurd (by simpa using hy) hseen
      · exact ih h hseen
    · rw [if_neg hy]
      rcases List.mem_cons.mp hx with h | h
      · subst h
        exact List.mem_cons_self x _
      · by_cases hxy : x = y
        · subst hxy
          exact List.mem_cons_self x _
        · refine List.mem_cons_of_mem _ (ih h ?_)
          intro hmem
          rcases List.mem_cons.mp hmem with h2 | h2
          · exact hxy h2
          · exact hseen h2

theorem mem_setList {x : String} {l : List String} (h : x ∈ l) : x ∈ setList l :=
  mem_setListGo h (by simp)

/-! ## Claim C4 -/

/-- **C4.**  For all pairs of ticket snapshots agreeing on ticket key,
last-updated timestamp and status whose acceptance-criteria and
description texts are equal after `normalizeText` (CRLF unification,
space/tab collapse, blank-line collapse, trim), `buildFingerprint`
returns the identical full digest and short id. -/
theorem buildFingerprint_whitespace_invariant (a b : FpInput)
    (hk : a.jiraKey = b.jiraKey)
    (hu : a.jiraUpdatedAt = b.jiraUpdatedAt)
    (hs : a.jiraStatus = b.jiraStatus)
    (hac : normalizeText a.acceptanceCriteria = normalizeText b.acceptanceCriteria)
    (hd : normalizeText a.description = normalizeText b.description) :
    buildFingerprint a = buildFingerprint b := by
  unfold buildFingerprint fingerprintPayload
  rw [hk, hu, hs, hac, hd]

/-- Witness for C4 at two concrete snapshots that differ only in
line endings, blank-line runs and space/tab runs. -/
theorem buildFingerprint_whitespace_invariant_witness :
    normalizeText "Given X\r\n\r\n\r\n\r\nWhen  \tY" = normalizeText "Given X\n\nWhen Y" ∧
    normalizeText "Some   desc\r\n" = normalizeText "Some desc" ∧
    buildFingerprint
      ⟨"ORKY-1", "2026-01-01T10:00:00Z", "Ready for Engineering",
       "Given X\r\n\r\n\r\n\r\nWhen  \tY", "Some   desc\r\n"⟩ =
    buildFingerprint
      ⟨"ORKY-1", "2026-01-01T10:00:00Z", "Ready for Engineering",
       "Given X\n\nWhen Y", "Some desc"⟩ :=
  ⟨by decide, by decide,
   buildFingerprint_whitespace_invariant _ _ rfl rfl rfl (by decide) (by decide)⟩

/-! ## Claim C5 -/

/-- **C5.**  For all pairs of ticket snapshots identical except in the
last-updated timestamp, the digest input strings of `buildFingerprint`
differ, so under collision-resistance of SHA-256 — i.e. whenever the
two distinct payloads do not collide — the full hex digests differ. -/
theorem buildFingerprint_timestamp_sensitive (a b : FpInput)
    (hk : a.jiraKey = b.jiraKey)
    (hs : a.jiraStatus = b.jiraStatus)
    (hac : a.acceptanceCriteria = b.acceptanceCriteria)
    (hd : a.description = b.description)
    (hu : a.jiraUpdatedAt ≠ b.jiraUpdatedAt) :
    fingerprintPayload a ≠ fingerprintPayload b ∧
    (sha256Hex (fingerprintPayload a) ≠ sha256Hex (fingerprintPayload b) →
      (buildFingerprint a).full ≠ (buildFingerprint b).full) := by
  constructor
  · intro h
    apply hu
    have h' : (fingerprintPayload a).data = (fingerprintPayload b).data := by rw [h]
    unfold fingerprintPayload at h'
    simp only [hk, hs, hac, hd, string_data_append, List.append_assoc] at h'
    have h1 := List.append_cancel_left h'
    have h2 := List.append_cancel_left h1
    have h3 := List.append_cancel_left h2
    have h4 := List.append_cancel_left h3
    exact string_eq_of_data_eq (List.append_cancel_right h4)
  · intro hne
    exact hne

/-- Witness for C5 at two concrete snapshots differing only in the
timestamp; for these inputs the two SHA-256 digests are in fact
distinct, so the fingerprints differ outright. -/
theorem buildFingerprint_timestamp_sensitive_witness :
    ("2026-01-01T10:00:00Z" : String) ≠ "2026-01-02T09:30:00Z" ∧
    (fingerprintPayload
        ⟨"ORKY-1", "2026-01-01T10:00:00Z", "Ready for Engineering", "AC", "D"⟩ ≠
      fingerprintPayload
        ⟨"ORKY-1", "2026-01-02T09:30:00Z", "Ready for Engineering", "AC", "D"⟩ ∧
     (sha256Hex (fingerprintPayload
        ⟨"ORKY-1", "2026-01-01T10:00:00Z", "Ready for Engineering", "AC", "D"⟩) ≠
      sha256Hex (fingerprintPayload
        ⟨"ORKY-1", "2026-01-02T09:30:00Z", "Ready for Engineering", "AC", "D"⟩) →
      (buildFingerprint
        ⟨"ORKY-1", "2026-01-01T10:00:00Z", "Ready for Engineering", "AC", "D"⟩).full ≠
      (buildFingerprint
        ⟨"ORKY-1", "2026-01-02T09:30:00Z", "Ready for Engineering", "AC", "D"⟩).full)) :=
  ⟨by decide,
   buildFingerprint_timestamp_sensitive _ _ rfl rfl rfl rfl (by decide)⟩

/-! ## Claim C6 -/

/-- **C6.**  `validateHardRules` accumulates all blockers: a snapshot
whose extracted acceptance criteria is empty and that carries a label
from the blocking-label set gets both the missing-acceptance-criteria
blocker and that label's blocker, and `ok` is false. -/
theorem validateHardRules_accumulates (cfg : Config) (issue : Issue) (l : String)
    (hac : normalizeText (extractAcceptanceCriteria cfg issue.fields) = "")
    (hl : l ∈ (issue.fields.labels.getD []).map jsToLower)
    (hbl : l ∈ BLOCKING_LABELS) :
    "Missing Acceptance Criteria" ∈ (validateHardRules cfg issue).blockers ∧
    ("Blocking label: " ++ l) ∈ (validateHardRules cfg issue).blockers ∧
    (validateHardRules cfg issue).ok = false := by
  have hmem1 : "Missing Acceptance Criteria" ∈ (validateHardRules cfg issue).blockers := by
    simp only [validateHardRules, hac, List.mem_append]
    simp
  have hx : ("Blocking label: " ++ l) ∈
      ((setList ((issue.fields.labels.getD []).map jsToLower)).filter
        (fun x => BLOCKING_LABELS.contains x)).map (fun x => "Blocking label: " ++ x) :=
    List.mem_map.mpr ⟨l, List.mem_filter.mpr ⟨mem_setList hl, by simpa using hbl⟩, rfl⟩
  have hmem2 : ("Blocking label: " ++ l) ∈ (validateHardRules cfg issue).blockers := by
    simp only [validateHardRules, List.mem_append]
    tauto
  refine ⟨hmem1, hmem2, ?_⟩
  have hne : (validateHardRules cfg issue).blockers ≠ [] := List.ne_nil_of_mem hmem1
  simp only [validateHardRules] at hne ⊢
  simpa [List.length_eq_zero] using hne

/-- Witness for C6: a ticket with no acceptance criteria anywhere and
the label `Blocked` (lower-cased to the blocking label `blocked`). -/
theorem validateHardRules_accumulates_witness :
    normalizeText (extractAcceptanceCriteria
      ⟨"https://j", "e", "t", "ORKY", "", "ohh-web", "31", "41"⟩
      ⟨some "Do the thing properly", some "Ready for Engineering", some ["Blocked"],
       some "2026-01-02", .str "Just a description, no criteria section", none⟩) = "" ∧
    "blocked" ∈ ((some ["Blocked"] : Option (List String)).getD []).map jsToLower ∧
    "blocked" ∈ BLOCKING_LABELS ∧
    ("Missing Acceptance Criteria" ∈ (validateHardRules
        ⟨"https://j", "e", "t", "ORKY", "", "ohh-web", "31", "41"⟩
        ⟨"ORKY-11", ⟨some "Do the thing properly", some "Ready for Engineering",
          some ["Blocked"], some "2026-01-02",
          .str "Just a description, no criteria section", none⟩⟩).blockers ∧
     ("Blocking label: " ++ "blocked") ∈ (validateHardRules
        ⟨"https://j", "e", "t", "ORKY", "", "ohh-web", "31", "41"⟩
        ⟨"ORKY-11", ⟨some "Do the thing properly", some "Ready for Engineering",
          some ["Blocked"], some "2026-01-02",
          .str "Just a description, no criteria section", none⟩⟩).blockers ∧
     (validateHardRules
        ⟨"https://j", "e", "t", "ORKY", "", "ohh-web", "31", "41"⟩
        ⟨"ORKY-11", ⟨some "Do the thing properly", some "Ready for Engineering",
          some ["Blocked"], some "2026-01-02",
          .str "Just a description, no criteria section", none⟩⟩).ok = false) :=
  ⟨by decide, by decide, by decide,
   validateHardRules_accumulates _ _ "blocked" (by decide) (by decide) (by decide)⟩

/-! ## Claim C8 -/

/-- **C8 counterexample.**  The claim that every Run Store operation
preserves the forward-only cursor invariant is false at a concrete
input: a run cancelled via the cancel route is moved back to
RECEIVED/INTAKE_START by a later start request. -/
theorem runstore_cancel_then_start_counterexample :
    (cancelRunRoute (createRunRow "run-1" "ORKY-9" "t0") "t1").cursor_state =
      "CANCELLED" ∧
    (startRunRoute (cancelRunRoute (createRunRow "run-1" "ORKY-9" "t0") "t1")
        "t2").cursor_state = "RECEIVED" ∧
    (startRunRoute (cancelRunRoute (createRunRow "run-1" "ORKY-9" "t0") "t1")
        "t2").cursor_step = "INTAKE_START" := by
  decide

/-- **C8 amended.**  The Run Store operations validate nothing:
`setRunCursor` overwrites cursor state, step and attempt
unconditionally — regardless of the run's current cursor or its lock
fields — so the start route resets any run, a cancelled one included,
to RECEIVED/INTAKE_START while keeping the attempt counter, and the
cancel route symmetrically forces CANCELLED/CANCELLED. -/
theorem runstore_cursor_update_unconditional (r : OrkyRun) (st sp now : String)
    (att : Nat) :
    (setRunCursorRow r st sp att now).cursor_state = st ∧
    (setRunCursorRow r st sp att now).cursor_step = sp ∧
    (setRunCursorRow r st sp att now).cursor_attempt = att ∧
    (setRunCursorRow r st sp att now).locked_by = r.locked_by ∧
    (setRunCursorRow r st sp att now).lock_expires_at = r.lock_expires_at ∧
    (startRunRoute r now).cursor_state = "RECEIVED" ∧
    (startRunRoute r now).cursor_step = "INTAKE_START" ∧
    (startRunRoute r now).cursor_attempt = r.cursor_attempt ∧
    (cancelRunRoute r now).cursor_state = "CANCELLED" := by
  exact ⟨rfl, rfl, rfl, rfl, rfl, rfl, rfl, rfl, rfl⟩

/-! ## Orchestration lemmas -/

/-- Exhaustive analysis of the per-ticket try body: a forge call, when
one occurs, is always preceded in the trace by the In Progress
transition and the pick-up comment; and a successfully returned item is
either the validation-failure outcome or the PR-created outcome, the
latter only with the full six-event trace in which the In Review
transition follows the PR-creation call whose result carried the url. -/
theorem tryBody_main (cfg : Config) (env : Env) (runTs : String) (issue : Issue) :
    ((∀ inp, Ev.forgeCall inp ∉ (tryBody cfg env runTs issue).1) ∨
     (∃ ct inp rest, (tryBody cfg env runTs issue).1 =
        Ev.transition issue.key cfg.tidInProgress :: Ev.comment issue.key ct ::
        Ev.forgeCall inp :: rest)) ∧
    (∀ item, (tryBody cfg env runTs issue).2 = Except.ok item →
      (∃ reason, item = ⟨issue.key, Outcome.validationFailed reason⟩) ∨
      (∃ ct inp req pr ct2 url fps repo branch,
        item = ⟨issue.key, Outcome.prCreated url fps repo branch⟩ ∧
        (tryBody cfg env runTs issue).1 =
          [Ev.transition issue.key cfg.tidInProgress, Ev.comment issue.key ct,
           Ev.forgeCall inp, Ev.createPr req, Ev.transition issue.key cfg.tidInReview,
           Ev.comment issue.key ct2] ∧
        env.createPr [Ev.transition issue.key cfg.tidInProgress, Ev.comment issue.key ct,
          Ev.forgeCall inp] req = Except.ok pr ∧
        prUrlOf pr = some url)) := by
  by_cases hv : (validateHardRules cfg issue).ok = true
  · by_cases h1 : cfg.tidInProgress = ""
    · have ht : tryBody cfg env runTs issue = ([], Except.error missingTransitionMsg) := by
        simp [tryBody, hv, callTransition, h1, andThen]
      refine ⟨Or.inl ?_, ?_⟩
      · intro inp
        rw [ht]
        simp
      · intro item h
        rw [ht] at h
        simp at h
    · by_cases h2 : jiraCfgOk cfg = true
      · cases henv1 : env.transition [] issue.key cfg.tidInProgress with
        | error e =>
          have ht : tryBody cfg env runTs issue =
              ([Ev.transition issue.key cfg.tidInProgress], Except.error e) := by
            simp [tryBody, hv, callTransition, h1, h2, andThen, henv1]
          refine ⟨Or.inl ?_, ?_⟩
          · intro inp
            rw [ht]
            simp
          · intro item h
            rw [ht] at h
            simp at h
        | ok u =>
          cases henv2 : env.addComment [Ev.transition issue.key cfg.tidInProgress]
              issue.key (pickupText cfg runTs issue) with
          | error e =>
            have ht : tryBody cfg env runTs issue =
                ([Ev.transition issue.key cfg.tidInProgress,
                  Ev.comment issue.key (pickupText cfg runTs issue)], Except.error e) := by
              simp [tryBody, hv, callTransition, callComment, h1, h2, andThen, henv1, henv2]
            refine ⟨Or.inl ?_, ?_⟩
            · intro inp
              rw [ht]
              simp
            · intro item h
              rw [ht] at h
              simp at h
          | ok u2 =>
            cases henv3 : env.forge [Ev.transition issue.key cfg.tidInProgress,
                Ev.comment issue.key (pickupText cfg runTs issue)]
                (forgeInputOf cfg runTs issue) with
            | error e =>
              have ht : tryBody cfg env runTs issue =
                  ([Ev.transition issue.key cfg.tidInProgress,
                    Ev.comment issue.key (pickupText cfg runTs issue),
                    Ev.forgeCall (forgeInputOf cfg runTs issue)], Except.error e) := by
                simp [tryBody, hv, callTransition, callComment, callForge, h1, h2, andThen,
                  henv1, henv2, henv3]
              refine ⟨Or.inr ⟨_, _, _, by rw [ht]⟩, ?_⟩
              · intro item h
                rw [ht] at h
                simp at h
            | ok prop =>
              cases henv4 : env.createPr [Ev.transition issue.key cfg.tidInProgress,
                  Ev.comment issue.key (pickupText cfg runTs issue),
                  Ev.forgeCall (forgeInputOf cfg runTs issue)]
                  (prRequestOf cfg runTs issue prop) with
              | error e =>
                have ht : tryBody cfg env runTs issue =
                    ([Ev.transition issue.key cfg.tidInProgress,
                      Ev.comment issue.key (pickupText cfg runTs issue),
                      Ev.forgeCall (forgeInputOf cfg runTs issue),
                      Ev.createPr (prRequestOf cfg runTs issue prop)], Except.error e) := by
                  simp [tryBody, hv, callTransition, callComment, callForge, callCreatePr,
                    h1, h2, andThen, henv1, henv2, henv3, henv4]
                refine ⟨Or.inr ⟨_, _, _, by rw [ht]⟩, ?_⟩
                intro item h
                rw [ht] at h
                simp at h
              | ok pr =>
                cases hurl : prUrlOf pr with
                | none =>
                  have ht : tryBody cfg env runTs issue =
                      ([Ev.transition issue.key cfg.tidInProgress,
                        Ev.comment issue.key (pickupText cfg runTs issue),
                        Ev.forgeCall (forgeInputOf cfg runTs issue),
                        Ev.createPr (prRequestOf cfg runTs issue prop)],
                       Except.error "PR creation returned no URL (expected pr.url)") := by
                    simp [tryBody, hv, callTransition, callComment, callForge, callCreatePr,
                      h1, h2, andThen, henv1, henv2, henv3, henv4, hurl]
                  refine ⟨Or.inr ⟨_, _, _, by rw [ht]⟩, ?_⟩
                  intro item h
                  rw [ht] at h
                  simp at h
                | some url =>
                  by_cases h3 : cfg.tidInReview = ""
                  · have ht : tryBody cfg env runTs issue =
                        ([Ev.transition issue.key cfg.tidInProgress,
                          Ev.comment issue.key (pickupText cfg runTs issue),
                          Ev.forgeCall (forgeInputOf cfg runTs issue),
                          Ev.createPr (prRequestOf cfg runTs issue prop)],
                         Except.error missingTransitionMsg) := by
                      simp [tryBody, hv, callTransition, callComment, callForge, callCreatePr,
                        h1, h2, h3, andThen, henv1, henv2, henv3, henv4, hurl]
                    refine ⟨Or.inr ⟨_, _, _, by rw [ht]⟩, ?_⟩
                    intro item h
                    rw [ht] at h
                    simp at h
                  · cases henv5 : env.transition [Ev.transition issue.key cfg.tidInProgress,
                        Ev.comment issue.key (pickupText cfg runTs issue),
                        Ev.forgeCall (forgeInputOf cfg runTs issue),
                        Ev.createPr (prRequestOf cfg runTs issue prop)]
                        issue.key cfg.tidInReview with
                    | error e =>
                      have ht : tryBody cfg env runTs issue =
                          ([Ev.transition issue.key cfg.tidInProgress,
                            Ev.comment issue.key (pickupText cfg runTs issue),
                            Ev.forgeCall (forgeInputOf cfg runTs issue),
                            Ev.createPr (prRequestOf cfg runTs issue prop),
                            Ev.transition issue.key cfg.tidInReview], Except.error e) := by
                        simp [tryBody, hv, callTransition, callComment, callForge, callCreatePr,
                          h1, h2, h3, andThen, henv1, henv2, henv3, henv4, hurl, henv5]
                      refine ⟨Or.inr ⟨_, _, _, by rw [ht]⟩, ?_⟩
                      intro item h
                      rw [ht] at h
                      simp at h
                    | ok u3 =>
                      cases henv6 : env.addComment [Ev.transition issue.key cfg.tidInProgress,
                          Ev.comment issue.key (pickupText cfg runTs issue),
                          Ev.forgeCall (forgeInputOf cfg runTs issue),
                          Ev.createPr (prRequestOf cfg runTs issue prop),
                          Ev.transition issue.key cfg.tidInReview]
                          issue.key (prOpenedText cfg issue url) with
                      | error e =>
                        have ht : tryBody cfg env runTs issue =
                            ([Ev.transition issue.key cfg.tidInProgress,
                              Ev.comment issue.key (pickupText cfg runTs issue),
                              Ev.forgeCall (forgeInputOf cfg runTs issue),
                              Ev.createPr (prRequestOf cfg runTs issue prop),
                              Ev.transition issue.key cfg.tidInReview,
                              Ev.comment issue.key (prOpenedText cfg issue url)],
                             Except.error e) := by
                          simp [tryBody, hv, callTransition, callComment, callForge,
                            callCreatePr, h1, h2, h3, andThen, henv1, henv2, henv3, henv4,
                            hurl, henv5, henv6]
                        refine ⟨Or.inr ⟨_, _, _, by rw [ht]⟩, ?_⟩
                        intro item h
                        rw [ht] at h
                        simp at h
                      | ok u4 =>
                        have ht : tryBody cfg env runTs issue =
                            ([Ev.transition issue.key cfg.tidInProgress,
                              Ev.comment issue.key (pickupText cfg runTs issue),
                              Ev.forgeCall (forgeInputOf cfg runTs issue),
                              Ev.createPr (prRequestOf cfg runTs issue prop),
                              Ev.transition issue.key cfg.tidInReview,
                              Ev.comment issue.key (prOpenedText cfg issue url)],
                             Except.ok ⟨issue.key, Outcome.prCreated url (fpOf cfg issue).short
                               (extractedOf cfg issue).targetRepo (branchNameOf runTs issue)⟩) := by
                          simp [tryBody, hv, callTransition, callComment, callForge,
                            callCreatePr, h1, h2, h3, andThen, henv1, henv2, henv3, henv4,
                            hurl, henv5, henv6]
                        refine ⟨Or.inr ⟨_, _, _, by rw [ht]⟩, ?_⟩
                        intro item h
                        rw [ht] at h
                        simp only [Except.ok.injEq] at h
                        right
                        refine ⟨pickupText cfg runTs issue, forgeInputOf cfg runTs issue,
                          prRequestOf cfg runTs issue prop, pr, prOpenedText cfg issue url,
                          url, (fpOf cfg issue).short, (extractedOf cfg issue).targetRepo,
                          branchNameOf runTs issue, h.symm, by rw [ht], henv4, hurl⟩
      · have h2' : jiraCfgOk cfg = false := by
          simpa using h2
        have ht : tryBody cfg env runTs issue = ([], Except.error missingJiraEnvMsg) := by
          simp [tryBody, hv, callTransition, h1, h2', andThen]
        refine ⟨Or.inl ?_, ?_⟩
        · intro inp
          rw [ht]
          simp
        · intro item h
          rw [ht] at h
          simp at h
  · have hv' : (validateHardRules cfg issue).ok = false := by
      simpa using hv
    by_cases h1 : cfg.tidInReview = ""
    · have ht : tryBody cfg env runTs issue = ([], Except.error missingTransitionMsg) := by
        simp [tryBody, hv', callTransition, h1, andThen]
      refine ⟨Or.inl ?_, ?_⟩
      · intro inp
        rw [ht]
        simp
      · intro item h
        rw [ht] at h
        simp at h
    · by_cases h2 : jiraCfgOk cfg = true
      · cases henv1 : env.transition [] issue.key cfg.tidInReview with
        | error e =>
          have ht : tryBody cfg env runTs issue =
              ([Ev.transition issue.key cfg.tidInReview], Except.error e) := by
            simp [tryBody, hv', callTransition, h1, h2, andThen, henv1]
          refine ⟨Or.inl ?_, ?_⟩
          · intro inp
            rw [ht]
            simp
          · intro item h
            rw [ht] at h
            simp at h
        | ok u =>
          cases henv2 : env.addComment [Ev.transition issue.key cfg.tidInReview]
              issue.key (vfComment cfg issue) with
          | error e =>
            have ht : tryBody cfg env runTs issue =
                ([Ev.transition issue.key cfg.tidInReview,
                  Ev.comment issue.key (vfComment cfg issue)], Except.error e) := by
              simp [tryBody, hv', callTransition, callComment, h1, h2, andThen, henv1, henv2]
            refine ⟨Or.inl ?_, ?_⟩
            · intro inp
              rw [ht]
              simp
            · intro item h
              rw [ht] at h
              simp at h
          | ok u2 =>
            have ht : tryBody cfg env runTs issue =
                ([Ev.transition issue.key cfg.tidInReview,
                  Ev.comment issue.key (vfComment cfg issue)],
                 Except.ok ⟨issue.key, Outcome.validationFailed (vfReason cfg issue)⟩) := by
              simp [tryBody, hv', callTransition, callComment, h1, h2, andThen, henv1, henv2]
            refine ⟨Or.inl ?_, ?_⟩
            · intro inp
              rw [ht]
              simp
            · intro item h
              rw [ht] at h
              simp only [Except.ok.injEq] at h
              exact Or.inl ⟨vfReason cfg issue, h.symm⟩
      · have h2' : jiraCfgOk cfg = false := by
          simpa using h2
        have ht : tryBody cfg env runTs issue = ([], Except.error missingJiraEnvMsg) := by
          simp [tryBody, hv', callTransition, h1, h2', andThen]
        refine ⟨Or.inl ?_, ?_⟩
        · intro inp
          rw [ht]
          simp
        · intro item h
          rw [ht] at h
          simp at h

/-- The catch block only ever appends transition/comment events for the
same ticket to the try body's trace; a successful body passes its item
through, a thrown error is recorded as the `failed` outcome with the
original message. -/
theorem processIssue_frame (cfg : Config) (env : Env) (runTs : String) (issue : Issue) :
    ∃ trC,
      (processIssue cfg env runTs issue).1 = (tryBody cfg env runTs issue).1 ++ trC ∧
      (∀ e ∈ trC, (∃ t, e = Ev.transition issue.key t) ∨
        (∃ c, e = Ev.comment issue.key c)) ∧
      ((∃ item, (tryBody cfg env runTs issue).2 = Except.ok item ∧
         (processIssue cfg env runTs issue).2 = item ∧ trC = []) ∨
       (∃ m, (tryBody cfg env runTs issue).2 = Except.error m ∧
         (processIssue cfg env runTs issue).2 = ⟨issue.key, Outcome.failed m⟩)) := by
  rcases htb : tryBody cfg env runTs issue with ⟨trB, rB⟩
  cases rB with
  | ok item =>
    have hp : processIssue cfg env runTs issue = (trB, item) := by
      unfold processIssue
      rw [htb]
    refine ⟨[], ?_, by simp, Or.inl ⟨item, by simp, by rw [hp], rfl⟩⟩
    rw [hp]
    simp
  | error m =>
    by_cases h1 : cfg.tidInReview = ""
    · have hp : processIssue cfg env runTs issue = (trB, ⟨issue.key, Outcome.failed m⟩) := by
        simp [processIssue, htb, callTransition, h1]
      refine ⟨[], ?_, by simp, Or.inr ⟨m, by simp, by rw [hp]⟩⟩
      rw [hp]
      simp
    · by_cases h2 : jiraCfgOk cfg = true
      · cases henv : env.transition trB issue.key cfg.tidInReview with
        | error e =>
          have hp : processIssue cfg env runTs issue =
              (trB ++ [Ev.transition issue.key cfg.tidInReview],
               ⟨issue.key, Outcome.failed m⟩) := by
            simp [processIssue, htb, callTransition, h1, h2, henv]
          refine ⟨[Ev.transition issue.key cfg.tidInReview], ?_, ?_,
            Or.inr ⟨m, by simp, by rw [hp]⟩⟩
          · rw [hp]
          · intro e he
            simp at he
            exact Or.inl ⟨cfg.tidInReview, he⟩
        | ok u =>
          have hp : processIssue cfg env runTs issue =
              (trB ++ [Ev.transition issue.key cfg.tidInReview,
                Ev.comment issue.key (compCommentText m)],
               ⟨issue.key, Outcome.failed m⟩) := by
            simp [processIssue, htb, callTransition, callComment, h1, h2, henv,
              List.append_assoc]
          refine ⟨[Ev.transition issue.key cfg.tidInReview,
            Ev.comment issue.key (compCommentText m)], ?_, ?_,
            Or.inr ⟨m, by simp, by rw [hp]⟩⟩
          · rw [hp]
          · intro e he
            rcases List.mem_cons.mp he with h | h
            · exact Or.inl ⟨cfg.tidInReview, h⟩
            · simp at h
              exact Or.inr ⟨compCommentText m, h⟩
      · have h2' : jiraCfgOk cfg = false := by
          simpa using h2
        have hp : processIssue cfg env runTs issue =
            (trB, ⟨issue.key, Outcome.failed m⟩) := by
          simp [processIssue, htb, callTransition, h1, h2']
        refine ⟨[], ?_, by simp, Or.inr ⟨m, by simp, by rw [hp]⟩⟩
        rw [hp]
        simp

/-- When the transition ids and Jira credentials are configured, the
catch block issues the compensating In Review transition; if that call
returns successfully the failure comment is also posted (its own error
swallowed), and in every case the item records the original error. -/
theorem processIssue_catch (cfg : Config) (env : Env) (runTs msg : String) (issue : Issue)
    (trB : Trace) (hok : jiraCfgOk cfg = true) (htid : cfg.tidInReview ≠ "")
    (hfail : tryBody cfg env runTs issue = (trB, Except.error msg)) :
    ((∃ u, env.transition trB issue.key cfg.tidInReview = Except.ok u) ∧
      processIssue cfg env runTs issue =
        (trB ++ [Ev.transition issue.key cfg.tidInReview,
                 Ev.comment issue.key (compCommentText msg)],
         ⟨issue.key, Outcome.failed msg⟩)) ∨
    ((∃ e, env.transition trB issue.key cfg.tidInReview = Except.error e) ∧
      processIssue cfg env runTs issue =
        (trB ++ [Ev.transition issue.key cfg.tidInReview],
         ⟨issue.key, Outcome.failed msg⟩)) := by
  cases henv : env.transition trB issue.key cfg.tidInReview with
  | error e =>
    refine Or.inr ⟨⟨e, rfl⟩, ?_⟩
    simp [processIssue, hfail, callTransition, htid, hok, henv]
  | ok u =>
    refine Or.inl ⟨⟨u, rfl⟩, ?_⟩
    simp [processIssue, hfail, callTransition, callComment, htid, hok, henv,
      List.append_assoc]

/-- Every item has exactly one of the three outcome kinds, so the three
counters of the report partition the item list. -/
theorem outcome_partition (items : List Item) :
    (items.countP fun it => isProcessedItem it) + (items.countP fun it => isSkippedItem it) +
      (items.countP fun it => isFailedItem it) = items.length := by
  induction items with
  | nil => simp
  | cons it rest ih =>
    rcases hoc : it.outcome with r | ⟨u, f, rp, b⟩ | e
    · have h1 : isProcessedItem it = false := by simp [isProcessedItem, hoc]
      have h2 : isSkippedItem it = true := by simp [isSkippedItem, hoc]
      have h3 : isFailedItem it = false := by simp [isFailedItem, hoc]
      simp only [List.countP_cons, List.length_cons, h1, h2, h3]
      simp only [if_true, if_false, Bool.false_eq_true, ite_false, ite_true]
      omega
    · have h1 : isProcessedItem it = true := by simp [isProcessedItem, hoc]
      have h2 : isSkippedItem it = false := by simp [isSkippedItem, hoc]
      have h3 : isFailedItem it = false := by simp [isFailedItem, hoc]
      simp only [List.countP_cons, List.length_cons, h1, h2, h3]
      simp only [if_true, if_false, Bool.false_eq_true, ite_false, ite_true]
      omega
    · have h1 : isProcessedItem it = false := by simp [isProcessedItem, hoc]
      have h2 : isSkippedItem it = false := by simp [isSkippedItem, hoc]
      have h3 : isFailedItem it = true := by simp [isFailedItem, hoc]
      simp only [List.countP_cons, List.length_cons, h1, h2, h3]
      simp only [if_true, if_false, Bool.false_eq_true, ite_false, ite_true]
      omega

/-- Every per-ticket item carries that ticket's key. -/
theorem processIssue_jiraKey (cfg : Config) (env : Env) (runTs : String) (issue : Issue) :
    ((processIssue cfg env runTs issue).2).jiraKey = issue.key := by
  obtain ⟨trC, htr, hkinds, hres⟩ := processIssue_frame cfg env runTs issue
  rcases hres with ⟨item, hok, hit, -⟩ | ⟨m, herr, hit⟩
  · rcases (tryBody_main cfg env runTs issue).2 item hok with ⟨r, hitem⟩ |
      ⟨ct, inp, req, pr, ct2, url, fps, rp, b, hitem, -, -, -⟩
    · rw [hit, hitem]
    · rw [hit, hitem]
  · rw [hit]

/-! ## Claims C1 and C9 -/

/-- **C1.**  For every ticket processed by `runJiraScanner`: whenever
the Proposal Generator is invoked, the trace begins with the In
Progress transition followed by the pick-up comment and only then the
forge call; and on the success path (outcome `pr_created`) the In
Review transition occurs at position 4 of the trace, strictly after the
PR-creation call at position 3, whose environment result carried the
PR url. -/
theorem scanner_transition_ordering (cfg : Config) (env : Env) (runTs : String)
    (issue : Issue) :
    ((∀ inp, Ev.forgeCall inp ∉ (processIssue cfg env runTs issue).1) ∨
     (∃ ct inp rest, (processIssue cfg env runTs issue).1 =
        Ev.transition issue.key cfg.tidInProgress :: Ev.comment issue.key ct ::
        Ev.forgeCall inp :: rest)) ∧
    (∀ url fps repo branch,
      ((processIssue cfg env runTs issue).2).outcome = Outcome.prCreated url fps repo branch →
      ∃ ct inp req pr ct2,
        (processIssue cfg env runTs issue).1 =
          [Ev.transition issue.key cfg.tidInProgress, Ev.comment issue.key ct,
           Ev.forgeCall inp, Ev.createPr req, Ev.transition issue.key cfg.tidInReview,
           Ev.comment issue.key ct2] ∧
        env.createPr [Ev.transition issue.key cfg.tidInProgress, Ev.comment issue.key ct,
          Ev.forgeCall inp] req = Except.ok pr ∧
        prUrlOf pr = some url) := by
  obtain ⟨trC, htr, hkinds, hres⟩ := processIssue_frame cfg env runTs issue
  obtain ⟨hA, hB⟩ := tryBody_main cfg env runTs issue
  constructor
  · rcases hA with hA | ⟨ct, inp, rest, heq⟩
    · left
      intro inp hmem
      rw [htr] at hmem
      rcases List.mem_append.mp hmem with h | h
      · exact hA inp h
      · rcases hkinds _ h with ⟨t, he⟩ | ⟨c, he⟩ <;> simp at he
    · right
      refine ⟨ct, inp, rest ++ trC, ?_⟩
      rw [htr, heq]
      simp
  · intro url fps repo branch hoc
    rcases hres with ⟨item, hok, hit, htrC⟩ | ⟨m, herr, hit⟩
    · rcases hB item hok with ⟨r, hitem⟩ |
        ⟨ct, inp, req, pr, ct2, url', fps', rp', b', hitem, htrB, henv, hurl⟩
      · rw [hit, hitem] at hoc
        simp at hoc
      · rw [hit, hitem] at hoc
        simp only [Outcome.prCreated.injEq] at hoc
        obtain ⟨h1, h2, h3, h4⟩ := hoc
        subst h1
        refine ⟨ct, inp, req, pr, ct2, ?_, henv, hurl⟩
        rw [htr, htrB, htrC]
        simp
    · rw [hit] at hoc
      simp at hoc

/-- **C9.**  Every report returned by `runJiraScanner` satisfies
`processed + skipped + failed = scanned`, `scanned` equals the number
of fetched issues, there is exactly one item per fetched issue carrying
that issue's key, and every item's outcome tag is one of the three
outcome strings. -/
theorem scanner_report_invariants (cfg : Config) (env : Env) (r : Report)
    (h : runJiraScanner cfg env = Except.ok r) :
    r.processed + r.skipped + r.failed = r.scanned ∧
    (∃ issues, env.searchReady = Except.ok issues ∧ r.scanned = issues.length ∧
      r.items.length = issues.length ∧
      ∀ k (hk : k < r.items.length) (hk2 : k < issues.length),
        (r.items.get ⟨k, hk⟩).jiraKey = (issues.get ⟨k, hk2⟩).key) ∧
    (∀ it ∈ r.items,
      outcomeTag it.outcome = "validation_failed_moved_to_in_review" ∨
      outcomeTag it.outcome = "pr_created_moved_to_in_review" ∨
      outcomeTag it.outcome = "failed") := by
  unfold runJiraScanner at h
  by_cases hpk : cfg.projectKey = ""
  · simp [hpk] at h
  · by_cases hok : jiraCfgOk cfg = true
    · rcases hsr : env.searchReady with e | issues
      · rw [hsr] at h
        simp [hpk, hok] at h
      · rw [hsr] at h
        simp only [hpk, hok] at h
        simp [hpk, hok] at h
        subst h
        refine ⟨?_, ⟨issues, rfl, rfl, by simp [reportFor], ?_⟩, ?_⟩
        · simp only [reportFor]
          rw [outcome_partition]
          simp
        · intro k hk hk2
          simp only [reportFor] at hk ⊢
          rw [List.get_map]
          exact processIssue_jiraKey cfg env env.now _
        · intro it hmem
          rcases it.outcome with rsn | ⟨u, f, rp, b⟩ | e <;> simp [outcomeTag]
    · have hok' : jiraCfgOk cfg = false := by simpa using hok
      simp [hpk, hok'] at h

/-! ## Claims C2 and C10 -/

/-- **C2.**  For every ticket whose try body throws (e.g. the
Repository Mutator throwing after the In Progress transition), the
catch block records the `failed` outcome with the original error,
issues the compensating In Review transition (an event appended after
the body's trace), posts the failure comment — whose text ends with the
captured error message — whenever that transition succeeded, and the
batch report counts exactly one extra `failed` for the ticket with
`processed` and `skipped` unchanged; a throwing compensation is
swallowed, leaving the original error in the item. -/
theorem scanner_compensation_and_counters (cfg : Config) (env : Env) (runTs msg : String)
    (issue : Issue) (trB : Trace) (before after : List Issue)
    (hok : jiraCfgOk cfg = true) (htid : cfg.tidInReview ≠ "")
    (hfail : tryBody cfg env runTs issue = (trB, Except.error msg)) :
    (processIssue cfg env runTs issue).2 = ⟨issue.key, Outcome.failed msg⟩ ∧
    Ev.transition issue.key cfg.tidInReview ∈
      (processIssue cfg env runTs issue).1.drop trB.length ∧
    (∀ u, env.transition trB issue.key cfg.tidInReview = Except.ok u →
      Ev.comment issue.key (compCommentText msg) ∈ (processIssue cfg env runTs issue).1) ∧
    (∃ pre, compCommentText msg = pre ++ msg) ∧
    (reportFor cfg env runTs (before ++ issue :: after)).failed =
      (reportFor cfg env runTs (before ++ after)).failed + 1 ∧
    (reportFor cfg env runTs (before ++ issue :: after)).processed =
      (reportFor cfg env runTs (before ++ after)).processed ∧
    (reportFor cfg env runTs (before ++ issue :: after)).skipped =
      (reportFor cfg env runTs (before ++ after)).skipped := by
  have hitem : (processIssue cfg env runTs issue).2 = ⟨issue.key, Outcome.failed msg⟩ ∧
      Ev.transition issue.key cfg.tidInReview ∈
        (processIssue cfg env runTs issue).1.drop trB.length ∧
      (∀ u, env.transition trB issue.key cfg.tidInReview = Except.ok u →
        Ev.comment issue.key (compCommentText msg) ∈ (processIssue cfg env runTs issue).1) := by
    rcases processIssue_catch cfg env runTs msg issue trB hok htid hfail with
      ⟨⟨u, henv⟩, hp⟩ | ⟨⟨e, henv⟩, hp⟩
    · refine ⟨by rw [hp], ?_, ?_⟩
      · rw [hp]
        simp [List.drop_left]
      · intro u' h'
        rw [hp]
        simp
    · refine ⟨by rw [hp], ?_, ?_⟩
      · rw [hp]
        simp [List.drop_left]
      · intro u' h'
        rw [henv] at h'
        simp at h'
  refine ⟨hitem.1, hitem.2.1, hitem.2.2, ⟨_, rfl⟩, ?_, ?_, ?_⟩ <;>
  · simp only [reportFor, List.map_append, List.map_cons, List.countP_append,
      List.countP_cons, hitem.1]
    simp [isFailedItem, isProcessedItem, isSkippedItem]
    try omega

/-- **C10.**  The per-ticket catch handler fires for any exception in
the try block, including one raised before the ticket was transitioned
to In Progress: when the validation-failure branch's own In Review
transition throws, the ticket is tallied as `failed` (not skipped), and
a second In Review transition attempt is issued by the catch block. -/
theorem scanner_catch_covers_validation_branch (cfg : Config) (env : Env)
    (runTs e : String) (issue : Issue)
    (hok : jiraCfgOk cfg = true) (htid : cfg.tidInReview ≠ "")
    (hv : (validateHardRules cfg issue).ok = false)
    (henv : env.transition [] issue.key cfg.tidInReview = Except.error e) :
    (processIssue cfg env runTs issue).2 = ⟨issue.key, Outcome.failed e⟩ ∧
    isFailedItem (processIssue cfg env runTs issue).2 = true ∧
    isSkippedItem (processIssue cfg env runTs issue).2 = false ∧
    ∃ rest, (processIssue cfg env runTs issue).1 =
      Ev.transition issue.key cfg.tidInReview ::
        Ev.transition issue.key cfg.tidInReview :: rest := by
  have hfail : tryBody cfg env runTs issue =
      ([Ev.transition issue.key cfg.tidInReview], Except.error e) := by
    simp [tryBody, hv, callTransition, htid, hok, andThen, henv]
  rcases processIssue_catch cfg env runTs e issue _ hok htid hfail with
    ⟨⟨u, h2⟩, hp⟩ | ⟨⟨e2, h2⟩, hp⟩
  · rw [hp]
    exact ⟨rfl, rfl, rfl, ⟨[Ev.comment issue.key (compCommentText e)], by simp⟩⟩
  · rw [hp]
    exact ⟨rfl, rfl, rfl, ⟨[], by simp⟩⟩

/-! ## Claim C7 -/

def isCreateCommitEv : GhEv → Bool
  | .createCommit _ _ _ _ _ => true
  | _ => false

def isCreateTreeEv : GhEv → Bool
  | .createTree _ _ _ _ => true
  | _ => false

def isCreateBlobEv : GhEv → Bool
  | .createBlob _ _ _ _ => true
  | _ => false

def isUpdateRefEv : GhEv → Bool
  | .updateRef _ _ _ _ _ => true
  | _ => false

def isCreatePullEv : GhEv → Bool
  | .createPull _ _ _ _ _ _ _ => true
  | _ => false

def isCreateRefEv : GhEv → Bool
  | .createRef _ _ _ _ => true
  | _ => false

/-- Successful blob creation appends exactly one blob event per file
and yields one tree item per file. -/
theorem createBlobs_shape (env : GhEnv) (owner repo : String) :
    ∀ (files : List GFile) (tr tr' : GhTrace) (items : List TreeItem),
      createBlobs env tr owner repo files = (tr', Except.ok items) →
      ∃ evs, tr' = tr ++ evs ∧ evs.length = files.length ∧
        (∀ e ∈ evs, ∃ c enc, e = GhEv.createBlob owner repo c enc) ∧
        items.length = files.length := by
  intro files
  induction files with
  | nil =>
    intro tr tr' items h
    simp only [createBlobs, Prod.mk.injEq, Except.ok.injEq] at h
    obtain ⟨h1, h2⟩ := h
    subst h1
    subst h2
    exact ⟨[], by simp, rfl, by simp, rfl⟩
  | cons f fs ih =>
    intro tr tr' items h
    simp only [createBlobs] at h
    cases hc : f.content with
    | none =>
      rw [hc] at h
      simp at h
    | some c =>
      rw [hc] at h
      by_cases hp : f.path = ""
      · simp [hp] at h
      · simp only [hp, beq_iff_eq, if_neg, ite_false] at h
        cases hbl : env.blobSha tr owner repo c (f.encoding.getD "utf-8") with
        | error e =>
          simp [ghCreateBlob, andThen, hbl] at h
        | ok bsha =>
          simp only [ghCreateBlob, hbl, andThen] at h
          rcases hrec : createBlobs env
              (tr ++ [GhEv.createBlob owner repo c (f.encoding.getD "utf-8")])
              owner repo fs with ⟨tr2, r2⟩
          rw [hrec] at h
          cases r2 with
          | error e =>
            simp [andThen] at h
          | ok items2 =>
            simp only [andThen, Prod.mk.injEq, Except.ok.injEq] at h
            obtain ⟨h1, h2⟩ := h
            subst h1
            obtain ⟨evs2, he1, he2, he3, he4⟩ := ih _ _ _ hrec
            refine ⟨GhEv.createBlob owner repo c (f.encoding.getD "utf-8") :: evs2,
              ?_, ?_, ?_, ?_⟩
            · rw [he1]
              simp
            · simp [he2]
            · intro e he
              rcases List.mem_cons.mp he with h' | h'
              · exact ⟨c, f.encoding.getD "utf-8", h'⟩
              · exact he3 e h'
            · rw [← h2]
              simp [he4]


/-- A successful `commitFiles` appends: the branch-head lookup, the
base-commit lookup, one blob per file, one tree, one commit whose sole
parent is the fetched branch head, and one ref update to the new
commit. -/
theorem commitFiles_shape (env : GhEnv) (tr : GhTrace)
    (owner repo branch msg : String) (files : List GFile) (tr' : GhTrace)
    (sha : String)
    (h : commitFiles env tr owner repo branch msg files = (tr', Except.ok sha)) :
    ∃ headSha baseTree items blobEvs newTreeSha,
      env.refSha tr owner repo branch = Except.ok headSha ∧
      tr' = tr ++ [GhEv.getRef owner repo branch, GhEv.getCommit owner repo headSha] ++
        blobEvs ++
        [GhEv.createTree owner repo baseTree items,
         GhEv.createCommit owner repo msg newTreeSha [headSha],
         GhEv.updateRef owner repo branch sha false] ∧
      blobEvs.length = files.length ∧
      (∀ e ∈ blobEvs, ∃ c enc, e = GhEv.createBlob owner repo c enc) ∧
      items.length = files.length := by
  unfold commitFiles at h
  cases href : env.refSha tr owner repo branch with
  | error e =>
    simp [ghGetRef, andThen, href] at h
  | ok headSha =>
    simp only [ghGetRef, href, andThen] at h
    cases hcom : env.commitTreeSha (tr ++ [GhEv.getRef owner repo branch])
        owner repo headSha with
    | error e =>
      simp [ghGetCommit, andThen, hcom] at h
    | ok baseTree =>
      simp only [ghGetCommit, hcom, andThen] at h
      rcases hbl : createBlobs env
          (tr ++ [GhEv.getRef owner repo branch] ++ [GhEv.getCommit owner repo headSha])
          owner repo files with ⟨trb, rb⟩
      rw [hbl] at h
      cases rb with
      | error e =>
        simp [andThen] at h
      | ok items =>
        simp only [andThen] at h
        cases htr : env.treeSha trb owner repo baseTree items with
        | error e =>
          simp [ghCreateTree, andThen, htr] at h
        | ok newTreeSha =>
          simp only [ghCreateTree, htr, andThen] at h
          cases hcm : env.commitSha (trb ++ [GhEv.createTree owner repo baseTree items])
              owner repo msg newTreeSha [headSha] with
          | error e =>
            simp [ghCreateCommit, andThen, hcm] at h
          | ok newCommitSha =>
            simp only [ghCreateCommit, hcm, andThen] at h
            cases hur : env.setRef (trb ++ [GhEv.createTree owner repo baseTree items] ++
                [GhEv.createCommit owner repo msg newTreeSha [headSha]])
                owner repo branch newCommitSha false with
            | error e =>
              simp only [ghUpdateRef] at h
              rw [hur] at h
              simp at h
            | ok u =>
              simp only [ghUpdateRef] at h
              rw [hur] at h
              simp only [Prod.mk.injEq, Except.ok.injEq] at h
              obtain ⟨h1, h2⟩ := h
              subst h2
              obtain ⟨evs, he1, he2, he3, he4⟩ := createBlobs_shape env owner repo
                files _ _ _ hbl
              refine ⟨headSha, baseTree, items, evs, newTreeSha, rfl, ?_, he2, he3, he4⟩
              rw [← h1, he1]
              simp


/-- **C7.**  A successful run of the PR handler's change-creation flow
issues exactly one commit-creation call regardless of the file count:
one blob per file, one tree, one commit, one ref advance, one pull
request and one branch creation — and every commit created has exactly
one parent, the head sha GitHub reports for the just-created branch
(i.e. the base commit the branch was cut from). -/
theorem pr_flow_single_commit (env : GhEnv) (owner defaultBranch : String)
    (body : PrBody) (tr : GhTrace) (res : PrHandlerRes) (files : List GFile)
    (hfiles : body.files = some files)
    (h : prHandlerCore env owner defaultBranch body = (tr, Except.ok res)) :
    tr.countP (fun e => isCreateCommitEv e) = 1 ∧
    tr.countP (fun e => isCreateTreeEv e) = 1 ∧
    tr.countP (fun e => isCreateBlobEv e) = files.length ∧
    tr.countP (fun e => isUpdateRefEv e) = 1 ∧
    tr.countP (fun e => isCreatePullEv e) = 1 ∧
    tr.countP (fun e => isCreateRefEv e) = 1 ∧
    (∃ baseSha headSha m t,
      tr.take 2 = [GhEv.getRef owner res.repo defaultBranch,
        GhEv.createRef owner res.repo ("refs/heads/" ++ res.head) baseSha] ∧
      env.refSha (tr.take 2) owner res.repo res.head = Except.ok headSha ∧
      GhEv.createCommit owner res.repo m t [headSha] ∈ tr ∧
      (∀ m2 t2 ps, GhEv.createCommit owner res.repo m2 t2 ps ∈ tr → ps = [headSha])) := by
  unfold prHandlerCore at h
  cases hrepo : body.repo with
  | none =>
    rw [hrepo] at h
    simp at h
  | some repo =>
    rw [hrepo] at h
    by_cases hre : repo = ""
    · simp [hre] at h
    · simp only [hre, beq_iff_eq, ite_false, if_neg] at h
      rw [hfiles] at h
      by_cases hfe : files.isEmpty
      · simp [hfe] at h
      · simp only [hfe, Bool.false_eq_true, ite_false, if_neg] at h
        cases hit : env.instToken with
        | error e =>
          rw [hit] at h
          simp at h
        | ok tok =>
          rw [hit] at h
          simp only [ghGetRef] at h
          cases href : env.refSha [] owner repo defaultBranch with
          | error e =>
            rw [href] at h
            simp [andThen] at h
          | ok baseSha =>
            rw [href] at h
            simp only [andThen, List.nil_append] at h
            simp only [ghCreateRef] at h
            cases hcr : env.newRef [GhEv.getRef owner repo defaultBranch] owner repo
                ("refs/heads/" ++ jsOrDefault body.branchName env.genBranch) baseSha with
            | error e =>
              rw [hcr] at h
              simp [andThen] at h
            | ok u =>
              rw [hcr] at h
              simp only [andThen] at h
              rcases hcf : commitFiles env
                  ([GhEv.getRef owner repo defaultBranch] ++
                   [GhEv.createRef owner repo
                     ("refs/heads/" ++ jsOrDefault body.branchName env.genBranch) baseSha])
                  owner repo (jsOrDefault body.branchName env.genBranch)
                  (jsOrDefault body.commitMessage
                    ("Orky update (" ++ jsOrDefault body.branchName env.genBranch ++ ")"))
                  files with ⟨tr3, r3⟩
              rw [hcf] at h
              cases r3 with
              | error e =>
                simp [andThen] at h
              | ok sha =>
                simp only [andThen, ghOpenPull] at h
                cases hop : env.openPull tr3 owner repo
                    (jsOrDefault body.prTitle ("Orky PR: " ++ jsOrDefault body.commitMessage
                      ("Orky update (" ++ jsOrDefault body.branchName env.genBranch ++ ")")))
                    (jsOrDefault body.branchName env.genBranch) defaultBranch
                    (jsOrDefault body.prBody "") false with
                | error e =>
                  rw [hop] at h
                  simp at h
                | ok pr =>
                  rw [hop] at h
                  simp only [Prod.mk.injEq, Except.ok.injEq] at h
                  obtain ⟨h1, h2⟩ := h
                  subst h2
                  obtain ⟨headSha, baseTree, items, blobEvs, newTreeSha, hrefs, htr3,
                    hlen, hkinds, hilen⟩ := commitFiles_shape env _ owner repo _ _ files _ _ hcf
                  subst h1
                  subst htr3
                  have hb0 : blobEvs.countP (fun e => isCreateCommitEv e) = 0 := by
                    refine List.countP_eq_zero.mpr ?_
                    intro a ha
                    obtain ⟨c, enc, rfl⟩ := hkinds a ha
                    simp [isCreateCommitEv]
                  have hb1 : blobEvs.countP (fun e => isCreateTreeEv e) = 0 := by
                    refine List.countP_eq_zero.mpr ?_
                    intro a ha
                    obtain ⟨c, enc, rfl⟩ := hkinds a ha
                    simp [isCreateTreeEv]
                  have hb2 : blobEvs.countP (fun e => isUpdateRefEv e) = 0 := by
                    refine List.countP_eq_zero.mpr ?_
                    intro a ha
                    obtain ⟨c, enc, rfl⟩ := hkinds a ha
                    simp [isUpdateRefEv]
                  have hb3 : blobEvs.countP (fun e => isCreatePullEv e) = 0 := by
                    refine List.countP_eq_zero.mpr ?_
                    intro a ha
                    obtain ⟨c, enc, rfl⟩ := hkinds a ha
                    simp [isCreatePullEv]
                  have hb4 : blobEvs.countP (fun e => isCreateRefEv e) = 0 := by
                    refine List.countP_eq_zero.mpr ?_
                    intro a ha
                    obtain ⟨c, enc, rfl⟩ := hkinds a ha
                    simp [isCreateRefEv]
                  have hb5 : blobEvs.countP (fun e => isCreateBlobEv e) = blobEvs.length := by
                    refine List.countP_eq_length.mpr ?_
                    intro a ha
                    obtain ⟨c, enc, rfl⟩ := hkinds a ha
                    simp [isCreateBlobEv]
                  refine ⟨?_, ?_, ?_, ?_, ?_, ?_, ?_⟩
                  · simp only [List.append_assoc, List.cons_append, List.nil_append,
                      List.countP_append, List.countP_cons, List.countP_nil]
                    rw [hb0]
                    simp [isCreateCommitEv]
                  · simp only [List.append_assoc, List.cons_append, List.nil_append,
                      List.countP_append, List.countP_cons, List.countP_nil]
                    rw [hb1]
                    simp [isCreateTreeEv]
                  · simp only [List.append_assoc, List.cons_append, List.nil_append,
                      List.countP_append, List.countP_cons, List.countP_nil]
                    rw [hb5]
                    simp [isCreateBlobEv, hlen]
                  · simp only [List.append_assoc, List.cons_append, List.nil_append,
                      List.countP_append, List.countP_cons, List.countP_nil]
                    rw [hb2]
                    simp [isUpdateRefEv]
                  · simp only [List.append_assoc, List.cons_append, List.nil_append,
                      List.countP_append, List.countP_cons, List.countP_nil]
                    rw [hb3]
                    simp [isCreatePullEv]
                  · simp only [List.append_assoc, List.cons_append, List.nil_append,
                      List.countP_append, List.countP_cons, List.countP_nil]
                    rw [hb4]
                    simp [isCreateRefEv]
                  · refine ⟨baseSha, headSha,
                      jsOrDefault body.commitMessage
                        ("Orky update (" ++ jsOrDefault body.branchName env.genBranch ++ ")"),
                      newTreeSha, ?_, ?_, ?_, ?_⟩
                    · simp
                    · simpa using hrefs
                    · simp
                    · intro m2 t2 ps hmem
                      simp only [List.append_assoc, List.cons_append, List.nil_append,
                        List.mem_append, List.mem_cons, List.mem_singleton] at hmem
                      rcases hmem with h' | h' | h' | h' | h' | h' | h' | h' | h'
                      · exact absurd h' (by simp)
                      · exact absurd h' (by simp)
                      · exact absurd h' (by simp)
                      · exact absurd h' (by simp)
                      · obtain ⟨c, enc, heq⟩ := hkinds _ h'
                        exact absurd heq (by simp)
                      · exact absurd h' (by simp)
                      · simp only [GhEv.createCommit.injEq] at h'
                        exact h'.2.2.2.2
                      · exact absurd h' (by simp)
                      · exact absurd h' (by simp)

/-! ## Concrete scenario used by the witnesses and the idempotency
counterexample -/

/-- Propositional equality on `Except` results is decidable when both
components' equality is. -/
instance instDecEqExcept {ε α : Type} [DecidableEq ε] [DecidableEq α] :
    DecidableEq (Except ε α) := fun x y =>
  match x, y with
  | .error a, .error b => decidable_of_iff (a = b) (by simp)
  | .ok a, .ok b => decidable_of_iff (a = b) (by simp)
  | .error _, .ok _ => isFalse (by simp)
  | .ok _, .error _ => isFalse (by simp)

/-- A fully configured scanner. -/
def wCfg : Config :=
  ⟨"https://jira.example", "bot@example.com", "token123", "ORKY",
   "customfield_1", "ohh-web", "31", "41"⟩

/-- A ticket that passes every hard rule. -/
def wIssue : Issue :=
  ⟨"ORKY-10",
   ⟨some "Add health check endpoint", some "Ready for Engineering", some ["api"],
    some "2026-01-01T10:00:00Z",
    DescField.str "Adds a health check endpoint to the service",
    some (AcVal.str "- GET /health returns 200")⟩⟩

/-- Collaborators that all succeed; the mutator returns a PR url. -/
def wEnvBase : Env :=
  ⟨"2026-02-03_04-05-06", Except.ok [wIssue],
   fun _ _ _ => Except.ok (), fun _ _ _ => Except.ok (),
   fun _ _ => Except.ok "proposal",
   fun _ _ => Except.ok ⟨some "https://github.com/Organized-Household/ohh-web/pull/7",
     none, none⟩⟩

/-- Same collaborators, but the Repository Mutator throws. -/
def wEnvPrFail : Env := { wEnvBase with createPr := fun _ _ => Except.error "boom" }

/-- Same collaborators, but every tracker transition throws. -/
def wEnvTransFail : Env :=
  { wEnvBase with transition := fun _ _ _ => Except.error "no transition edge" }

/-- A ticket failing validation: too-short summary, no description, no
acceptance criteria. -/
def wBadIssue : Issue :=
  ⟨"ORKY-11",
   ⟨some "x", some "Ready for Engineering", none, some "2026-01-01",
    DescField.missing, none⟩⟩

/-- The report of the all-success batch pass. -/
def wReport : Report :=
  (runJiraScanner wCfg wEnvBase).toOption.getD ⟨"", 0, 0, 0, 0, []⟩

/-- The try-body trace of the mutator-throws pass. -/
def wTrB : Trace := (tryBody wCfg wEnvPrFail wEnvBase.now wIssue).1

set_option maxRecDepth 1000000 in
/-- Witness for C9: the all-success pass returns a report and its
counters add up. -/
theorem scanner_report_invariants_witness :
    runJiraScanner wCfg wEnvBase = Except.ok wReport ∧
    wReport.processed + wReport.skipped + wReport.failed = wReport.scanned :=
  ⟨by decide, (scanner_report_invariants wCfg wEnvBase wReport (by decide)).1⟩

set_option maxRecDepth 1000000 in
/-- Witness for C2: with the Repository Mutator throwing `boom` after
the In Progress transition, the ticket's item records the original
error. -/
theorem scanner_compensation_and_counters_witness :
    jiraCfgOk wCfg = true ∧ wCfg.tidInReview ≠ "" ∧
    tryBody wCfg wEnvPrFail wEnvBase.now wIssue = (wTrB, Except.error "boom") ∧
    (processIssue wCfg wEnvPrFail wEnvBase.now wIssue).2 =
      ⟨wIssue.key, Outcome.failed "boom"⟩ :=
  ⟨by decide, by decide, by decide,
   (scanner_compensation_and_counters wCfg wEnvPrFail wEnvBase.now "boom" wIssue wTrB
     [] [] (by decide) (by decide) (by decide)).1⟩

set_option maxRecDepth 1000000 in
/-- Witness for C10: a validation-failed ticket whose In Review
transition throws is tallied as failed. -/
theorem scanner_catch_covers_validation_branch_witness :
    jiraCfgOk wCfg = true ∧ (validateHardRules wCfg wBadIssue).ok = false ∧
    wEnvTransFail.transition [] wBadIssue.key wCfg.tidInReview =
      Except.error "no transition edge" ∧
    (processIssue wCfg wEnvTransFail wEnvBase.now wBadIssue).2 =
      ⟨wBadIssue.key, Outcome.failed "no transition edge"⟩ :=
  ⟨by decide, by decide, by decide,
   (scanner_catch_covers_validation_branch wCfg wEnvTransFail wEnvBase.now
     "no transition edge" wBadIssue (by decide) (by decide) (by decide) (by decide)).1⟩

/-! ## Claim C3 -/

/-- The concatenated traces of two sequential scanner passes over the
same unchanged ticket content (the scanner keeps no state between
passes, so the second pass repeats the first). -/
def twoPassTrace : Trace :=
  (processIssue wCfg wEnvBase wEnvBase.now wIssue).1 ++
  (processIssue wCfg wEnvBase wEnvBase.now wIssue).1

set_option maxRecDepth 1000000 in
/-- **C3 evidence.**  Two sequential passes over identical ticket
content — hence the identical fingerprint — both invoke the Repository
Mutator: the combined trace holds two PR-creation calls carrying the
same fingerprint, and each pass's report counts the ticket as
processed.  The scanner never consults the `orky_idempotency_keys`
store before the call, so the claimed reuse does not happen. -/
theorem scanner_no_idempotency_reuse :
    (twoPassTrace.countP fun e =>
      match e with
      | Ev.createPr req => req.meta.fingerprint == (fpOf wCfg wIssue).full
      | _ => false) = 2 ∧
    runJiraScanner wCfg wEnvBase = Except.ok wReport ∧
    wReport.processed = 1 := by
  refine ⟨by decide, by decide, by decide⟩

/-- The file list of the PR-flow witness: two files, one commit. -/
def wFiles : List GFile :=
  [⟨"a.txt", some "A", none, none⟩, ⟨"b.txt", some "B", none, none⟩]

/-- The request body of the PR-flow witness. -/
def wPrBody : PrBody :=
  ⟨some "ohh-web", some "ORKY-10/2026-02-03_04-05-06", some "ORKY-10: title",
   some "body", some "ORKY-10: msg", some wFiles⟩

/-- A GitHub side where every call succeeds. -/
def wGhEnv : GhEnv :=
  { instToken := Except.ok "tok"
    genBranch := "orky/generated"
    refSha := fun _ _ _ _ => Except.ok "base0"
    commitTreeSha := fun _ _ _ _ => Except.ok "tree0"
    blobSha := fun _ _ _ c _ => Except.ok ("blob-" ++ c)
    treeSha := fun _ _ _ _ _ => Except.ok "tree1"
    commitSha := fun _ _ _ _ _ _ => Except.ok "commit1"
    setRef := fun _ _ _ _ _ _ => Except.ok ()
    newRef := fun _ _ _ _ _ => Except.ok ()
    openPull := fun _ _ _ _ _ _ _ _ =>
      Except.ok ⟨"https://github.com/Organized-Household/ohh-web/pull/7", 7⟩ }

/-- The trace of the successful PR-flow witness run. -/
def wGhTr : GhTrace := (prHandlerCore wGhEnv "Organized-Household" "main" wPrBody).1

/-- The result of the successful PR-flow witness run. -/
def wGhRes : PrHandlerRes :=
  ((prHandlerCore wGhEnv "Organized-Household" "main" wPrBody).2).toOption.getD
    ⟨"", "", "", "", "", 0⟩

/-- Witness for C7: a two-file request creates two blobs but exactly
one commit. -/
theorem pr_flow_single_commit_witness :
    wPrBody.files = some wFiles ∧
    prHandlerCore wGhEnv "Organized-Household" "main" wPrBody =
      (wGhTr, Except.ok wGhRes) ∧
    wGhTr.countP (fun e => isCreateCommitEv e) = 1 ∧
    wGhTr.countP (fun e => isCreateBlobEv e) = wFiles.length :=
  ⟨rfl, by decide,
   (pr_flow_single_commit wGhEnv "Organized-Household" "main" wPrBody wGhTr wGhRes
     wFiles rfl (by decide)).1,
   (pr_flow_single_commit wGhEnv "Organized-Household" "main" wPrBody wGhTr wGhRes
     wFiles rfl (by decide)).2.2.1⟩

end Orky
